import Mathlib

set_option maxRecDepth 100000

/-!
Verification of the LAS/LAZ point-cloud decoder (DTM-3D-viewer).

Shallow embedding of src/LasFileParser.ts, src/LazParser.ts and the
LazFileParser variant (appended to src/types/laz-perf.d.ts). Byte buffers
are lists of naturals read little-endian with DataView-style bounds checks
(an out-of-range read models the RangeError the JS DataView throws).
IEEE-754 doubles are modelled exactly: scale factors, offsets and bounds
are rationals, and the bit-pattern interpretation of getFloat64 is an
explicit parameter f64 : Nat -> Rat carried through the decoders, so every
field computation mirrors the source expression over exact arithmetic.
-/

/-- Bytes of a buffer at [off, off+n): drop, take, and reduce each entry to
a byte value (a DataView element is always a byte). -/
def bytesAt (buf : List Nat) (off n : Nat) : List Nat :=
  ((buf.drop off).take n).map (· % 256)

/-- Little-endian value of a byte list, least significant byte first. -/
def leVal : List Nat → Nat
  | [] => 0
  | b :: bs => b + 256 * leVal bs

/-- Unsigned little-endian field of n bytes at off, as a total function
(used to state what a successful read returned). -/
def leField (buf : List Nat) (off n : Nat) : Nat :=
  leVal (bytesAt buf off n)

/-- DataView-style bounds-checked read of n raw bytes. -/
def readBytes (buf : List Nat) (off n : Nat) : Option (List Nat) :=
  if off + n ≤ buf.length then some (bytesAt buf off n) else none

/-- Bounds-checked little-endian unsigned read (getUint8/16/32, getBigUint64). -/
def readLE (buf : List Nat) (off n : Nat) : Option Nat :=
  (readBytes buf off n).map leVal

/-- Two's-complement reinterpretation of a 32-bit unsigned value (getInt32). -/
def toInt32 (v : Nat) : Int :=
  if v < 2 ^ 31 then (v : Int) else (v : Int) - 2 ^ 32

/-- Two's-complement reinterpretation of an 8-bit unsigned value (getInt8). -/
def toInt8 (v : Nat) : Int :=
  if v < 2 ^ 7 then (v : Int) else (v : Int) - 2 ^ 8

/-- getUint8 at off. -/
def readU8 (buf : List Nat) (off : Nat) : Option Nat := readLE buf off 1

/-- getUint16 little-endian at off. -/
def readU16 (buf : List Nat) (off : Nat) : Option Nat := readLE buf off 2

/-- getUint32 little-endian at off. -/
def readU32 (buf : List Nat) (off : Nat) : Option Nat := readLE buf off 4

/-- getInt32 little-endian at off. -/
def readI32 (buf : List Nat) (off : Nat) : Option Int :=
  (readLE buf off 4).map toInt32

/-- getInt8 at off. -/
def readI8 (buf : List Nat) (off : Nat) : Option Int :=
  (readLE buf off 1).map toInt8

/-- getFloat64 little-endian at off: the 64-bit pattern interpreted by the
parameter f64 (the IEEE-754 double semantics, kept abstract). -/
def readF64 (f64 : Nat → ℚ) (buf : List Nat) (off : Nat) : Option ℚ :=
  (readLE buf off 8).map f64

/-- Decoded LAS header (interface LasHeader of src/LasFileParser.ts).
String fields are kept as their NUL-stripped byte lists (getString decodes
ascii and strips NULs; the .trim() on the two identifier strings and the
hex rendering of the GUID are presentation-only and elided). Float64
fields are rationals via the f64 parameter. -/
structure LasHeader where
  fileSignature : List Nat
  fileSourceId : Nat
  globalEncoding : Nat
  projectIdGuid : List Nat
  versionMajor : Nat
  versionMinor : Nat
  systemIdentifier : List Nat
  generatingSoftware : List Nat
  creationDayOfYear : Nat
  creationYear : Nat
  headerSize : Nat
  offsetToPointData : Nat
  numberOfVariableLengthRecords : Nat
  pointDataRecordFormat : Nat
  pointDataRecordLength : Nat
  numberOfPointRecords : Nat
  numberOfPointsByReturn : List Nat
  xScaleFactor : ℚ
  yScaleFactor : ℚ
  zScaleFactor : ℚ
  xOffset : ℚ
  yOffset : ℚ
  zOffset : ℚ
  maxX : ℚ
  minX : ℚ
  maxY : ℚ
  minY : ℚ
  maxZ : ℚ
  minZ : ℚ
deriving Repr, DecidableEq

/-- Decoded point record (interface LasPoint of src/LasFileParser.ts).
Optional fields model the TS optional properties. -/
structure LasPoint where
  x : ℚ
  y : ℚ
  z : ℚ
  intensity : Nat
  returnNumber : Nat
  numberOfReturns : Nat
  scanDirectionFlag : Nat
  edgeOfFlightLine : Nat
  classification : Nat
  scanAngleRank : Int
  userData : Nat
  pointSourceId : Nat
  gpsTime : Option ℚ
  red : Option Nat
  green : Option Nat
  blue : Option Nat
deriving Repr, DecidableEq

namespace LasFileParser

/-- Fixed-layout reads of parsePoint in src/LasFileParser.ts (lines
308-322), in source order: raw x/y/z, intensity, the flag byte, then
classification at offset 16, scan-angle-rank at 17, user-data at 18 and
point-source-id at 19. Split from the assembly below so each compiled
piece stays small. -/
def parsePointCore (view : List Nat) (off : Nat) :
    Option (Int × Int × Int × Nat × Nat × Nat × Int × Nat × Nat) := do
  let xRaw ← readI32 view (off + 0)
  let yRaw ← readI32 view (off + 4)
  let zRaw ← readI32 view (off + 8)
  let intensity ← readU16 view (off + 12)
  let returnByte ← readU8 view (off + 14)
  let classification ← readU8 view (off + 16)
  let scanAngleRank ← readI8 view (off + 17)
  let userData ← readU8 view (off + 18)
  let pointSourceId ← readU16 view (off + 19)
  pure (xRaw, yRaw, zRaw, intensity, returnByte, classification, scanAngleRank,
    userData, pointSourceId)

/-- Point decoder of src/LasFileParser.ts, parsePoint (lines 301-354).
view/off model the DataView and offsetToUse (window mode passes off = 0).
Each bounds-checked read is an Option; none models the DataView RangeError.
Bit unpacking uses % and / for & 0x07 and >> on byte values. -/
def parsePoint (f64 : Nat → ℚ) (view : List Nat) (off : Nat) (h : LasHeader) :
    Option LasPoint := do
  let (xRaw, yRaw, zRaw, intensity, returnByte, classification, scanAngleRank,
    userData, pointSourceId) ← parsePointCore view off
  let gpsTime ←
    if h.pointDataRecordFormat = 1 ∨ h.pointDataRecordFormat = 3 then
      (readF64 f64 view (off + 20)).map some
    else pure none
  let rgb ←
    if h.pointDataRecordFormat = 2 ∨ h.pointDataRecordFormat = 3 then do
      let r ← readU16 view (off + (if h.pointDataRecordFormat = 3 then 28 else 20))
      let g ← readU16 view (off + (if h.pointDataRecordFormat = 3 then 30 else 22))
      let b ← readU16 view (off + (if h.pointDataRecordFormat = 3 then 32 else 24))
      pure (some r, some g, some b)
    else pure ((none : Option Nat), (none : Option Nat), (none : Option Nat))
  pure {
    x := (xRaw : ℚ) * h.xScaleFactor + h.xOffset
    y := (yRaw : ℚ) * h.yScaleFactor + h.yOffset
    z := (zRaw : ℚ) * h.zScaleFactor + h.zOffset
    intensity := intensity
    returnNumber := returnByte % 8
    numberOfReturns := returnByte / 8 % 8
    scanDirectionFlag := returnByte / 64 % 2
    edgeOfFlightLine := returnByte / 128 % 2
    classification := classification
    scanAngleRank := scanAngleRank
    userData := userData
    pointSourceId := pointSourceId
    gpsTime := gpsTime
    red := rgb.1
    green := rgb.2.1
    blue := rgb.2.2 }

end LasFileParser

namespace LazParser

/-- Fixed-layout reads of parsePoint in src/LazParser.ts (lines 14-28):
identical to the LasFileParser reads except that classification,
scan-angle-rank, user-data and point-source-id sit at window offsets
15/16/17/18 (the public LAS layout) instead of 16/17/18/19. -/
def parsePointCore (view : List Nat) (off : Nat) :
    Option (Int × Int × Int × Nat × Nat × Nat × Int × Nat × Nat) := do
  let xRaw ← readI32 view (off + 0)
  let yRaw ← readI32 view (off + 4)
  let zRaw ← readI32 view (off + 8)
  let intensity ← readU16 view (off + 12)
  let returnByte ← readU8 view (off + 14)
  let classification ← readU8 view (off + 15)
  let scanAngleRank ← readI8 view (off + 16)
  let userData ← readU8 view (off + 17)
  let pointSourceId ← readU16 view (off + 18)
  pure (xRaw, yRaw, zRaw, intensity, returnByte, classification, scanAngleRank,
    userData, pointSourceId)

/-- Point decoder of src/LazParser.ts, parsePoint (lines 7-60). -/
def parsePoint (f64 : Nat → ℚ) (view : List Nat) (off : Nat) (h : LasHeader) :
    Option LasPoint := do
  let (xRaw, yRaw, zRaw, intensity, returnByte, classification, scanAngleRank,
    userData, pointSourceId) ← parsePointCore view off
  let gpsTime ←
    if h.pointDataRecordFormat = 1 ∨ h.pointDataRecordFormat = 3 then
      (readF64 f64 view (off + 20)).map some
    else pure none
  let rgb ←
    if h.pointDataRecordFormat = 2 ∨ h.pointDataRecordFormat = 3 then do
      let r ← readU16 view (off + (if h.pointDataRecordFormat = 3 then 28 else 20))
      let g ← readU16 view (off + (if h.pointDataRecordFormat = 3 then 30 else 22))
      let b ← readU16 view (off + (if h.pointDataRecordFormat = 3 then 32 else 24))
      pure (some r, some g, some b)
    else pure ((none : Option Nat), (none : Option Nat), (none : Option Nat))
  pure {
    x := (xRaw : ℚ) * h.xScaleFactor + h.xOffset
    y := (yRaw : ℚ) * h.yScaleFactor + h.yOffset
    z := (zRaw : ℚ) * h.zScaleFactor + h.zOffset
    intensity := intensity
    returnNumber := returnByte % 8
    numberOfReturns := returnByte / 8 % 8
    scanDirectionFlag := returnByte / 64 % 2
    edgeOfFlightLine := returnByte / 128 % 2
    classification := classification
    scanAngleRank := scanAngleRank
    userData := userData
    pointSourceId := pointSourceId
    gpsTime := gpsTime
    red := rgb.1
    green := rgb.2.1
    blue := rgb.2.2 }

end LazParser

namespace LazFileParser

/-- Fixed-layout reads of parsePoint in the LazFileParser variant
(LazFileParser.ts text, kept appended to src/types/laz-perf.d.ts, lines
37-51): textually the same reads as LasFileParser.parsePoint, with
classification at window offset 16. -/
def parsePointCore (view : List Nat) (off : Nat) :
    Option (Int × Int × Int × Nat × Nat × Nat × Int × Nat × Nat) := do
  let xRaw ← readI32 view (off + 0)
  let yRaw ← readI32 view (off + 4)
  let zRaw ← readI32 view (off + 8)
  let intensity ← readU16 view (off + 12)
  let returnByte ← readU8 view (off + 14)
  let classification ← readU8 view (off + 16)
  let scanAngleRank ← readI8 view (off + 17)
  let userData ← readU8 view (off + 18)
  let pointSourceId ← readU16 view (off + 19)
  pure (xRaw, yRaw, zRaw, intensity, returnByte, classification, scanAngleRank,
    userData, pointSourceId)

/-- Point decoder of the LazFileParser variant (laz-perf.d.ts appended
text, lines 30-83): textually the same body as LasFileParser.parsePoint. -/
def parsePoint (f64 : Nat → ℚ) (view : List Nat) (off : Nat) (h : LasHeader) :
    Option LasPoint := do
  let (xRaw, yRaw, zRaw, intensity, returnByte, classification, scanAngleRank,
    userData, pointSourceId) ← parsePointCore view off
  let gpsTime ←
    if h.pointDataRecordFormat = 1 ∨ h.pointDataRecordFormat = 3 then
      (readF64 f64 view (off + 20)).map some
    else pure none
  let rgb ←
    if h.pointDataRecordFormat = 2 ∨ h.pointDataRecordFormat = 3 then do
      let r ← readU16 view (off + (if h.pointDataRecordFormat = 3 then 28 else 20))
      let g ← readU16 view (off + (if h.pointDataRecordFormat = 3 then 30 else 22))
      let b ← readU16 view (off + (if h.pointDataRecordFormat = 3 then 32 else 24))
      pure (some r, some g, some b)
    else pure ((none : Option Nat), (none : Option Nat), (none : Option Nat))
  pure {
    x := (xRaw : ℚ) * h.xScaleFactor + h.xOffset
    y := (yRaw : ℚ) * h.yScaleFactor + h.yOffset
    z := (zRaw : ℚ) * h.zScaleFactor + h.zOffset
    intensity := intensity
    returnNumber := returnByte % 8
    numberOfReturns := returnByte / 8 % 8
    scanDirectionFlag := returnByte / 64 % 2
    edgeOfFlightLine := returnByte / 128 % 2
    classification := classification
    scanAngleRank := scanAngleRank
    userData := userData
    pointSourceId := pointSourceId
    gpsTime := gpsTime
    red := rgb.1
    green := rgb.2.1
    blue := rgb.2.2 }

end LazFileParser

/-- Error kinds a parse can surface: emptyBuffer models the explicit check
in initializeDataView, invalidSignature the thrown signature Error,
outOfBounds the DataView RangeError, reprojectionError a throw from the
external projection engine (proj4). -/
inductive ParseErr where
  | emptyBuffer
  | invalidSignature
  | outOfBounds
  | reprojectionError
deriving Repr, DecidableEq

/-- Bounds-checked little-endian read in the error monad (a DataView read:
RangeError becomes ParseErr.outOfBounds). -/
def rdLE (buf : List Nat) (off n : Nat) : Except ParseErr Nat :=
  if off + n ≤ buf.length then .ok (leField buf off n) else .error .outOfBounds

/-- NUL-stripped byte content of getString(off, n), as a total function. -/
def strField (buf : List Nat) (off n : Nat) : List Nat :=
  (bytesAt buf off n).filter (· ≠ 0)

/-- getString(off, n): ascii decode with NUL characters stripped
(the replace of the source); .trim() is presentation-only and elided. -/
def rdStr (buf : List Nat) (off n : Nat) : Except ParseErr (List Nat) :=
  if off + n ≤ buf.length then .ok (strField buf off n) else .error .outOfBounds

/-- getGuid(off): the 16 raw GUID bytes (the hex-string rendering of the
source is presentation-only and elided). -/
def rdGuid (buf : List Nat) (off : Nat) : Except ParseErr (List Nat) :=
  if off + 16 ≤ buf.length then .ok (bytesAt buf off 16) else .error .outOfBounds

/-- getFloat64(off) in the error monad, via the f64 interpretation. -/
def rdF64 (f64 : Nat → ℚ) (buf : List Nat) (off : Nat) : Except ParseErr ℚ :=
  (rdLE buf off 8).map f64

/-- Character codes of the magic signature LASF. -/
def lasfSignature : List Nat := [76, 65, 83, 70]

/-- Signature guard of parseHeader: throw Error('Invalid LAS file...') when
the decoded signature differs from LASF. -/
def checkSignature (sig : List Nat) : Except ParseErr Unit :=
  if sig ≠ lasfSignature then .error .invalidSignature else .ok ()

/-- Five per-return counts at base, base+sz, ..., base+4*sz, each sz bytes
(sz = 8 for the LAS 1.4 fields at 255.., sz = 4 for the legacy fields at
111..). -/
def readReturnCounts (buf : List Nat) (base sz : Nat) :
    Except ParseErr (List Nat) := do
  let r1 ← rdLE buf base sz
  let r2 ← rdLE buf (base + sz) sz
  let r3 ← rdLE buf (base + 2 * sz) sz
  let r4 ← rdLE buf (base + 3 * sz) sz
  let r5 ← rdLE buf (base + 4 * sz) sz
  pure [r1, r2, r3, r4, r5]

/-- Version predicate of parseHeader (isLAS14: versionMajor >= 1 &&
versionMinor >= 4), phrased on the raw buffer bytes 24/25. -/
def las14OfBuf (buf : List Nat) : Prop :=
  1 ≤ leField buf 24 1 ∧ 4 ≤ leField buf 25 1

instance (buf : List Nat) : Decidable (las14OfBuf buf) := by
  unfold las14OfBuf; infer_instance

/-- Header a successful parseHeader returns, as a total function of the
buffer (each field the value of its read in src/LasFileParser.ts
parseHeader, lines 180-244). -/
def mkHeader (f64 : Nat → ℚ) (buf : List Nat) : LasHeader :=
  { fileSignature := strField buf 0 4
    fileSourceId := leField buf 4 2
    globalEncoding := leField buf 6 2
    projectIdGuid := bytesAt buf 8 16
    versionMajor := leField buf 24 1
    versionMinor := leField buf 25 1
    systemIdentifier := strField buf 26 32
    generatingSoftware := strField buf 58 32
    creationDayOfYear := leField buf 90 2
    creationYear := leField buf 92 2
    headerSize := leField buf 94 2
    offsetToPointData := leField buf 96 4
    numberOfVariableLengthRecords := leField buf 100 4
    pointDataRecordFormat := leField buf 104 1
    pointDataRecordLength := leField buf 105 2
    numberOfPointRecords :=
      if las14OfBuf buf then leField buf 247 8 else leField buf 107 4
    numberOfPointsByReturn :=
      if las14OfBuf buf then
        [leField buf 255 8, leField buf 263 8, leField buf 271 8,
         leField buf 279 8, leField buf 287 8]
      else
        [leField buf 111 4, leField buf 115 4, leField buf 119 4,
         leField buf 123 4, leField buf 127 4]
    xScaleFactor := f64 (leField buf 131 8)
    yScaleFactor := f64 (leField buf 139 8)
    zScaleFactor := f64 (leField buf 147 8)
    xOffset := f64 (leField buf 155 8)
    yOffset := f64 (leField buf 163 8)
    zOffset := f64 (leField buf 171 8)
    maxX := f64 (leField buf 179 8)
    minX := f64 (leField buf 187 8)
    maxY := f64 (leField buf 195 8)
    minY := f64 (leField buf 203 8)
    maxZ := f64 (leField buf 211 8)
    minZ := f64 (leField buf 219 8) }

namespace LasFileParser

/-- Scalar reads of parseHeader up to the point-record count (lines
182-196): signature string, version bytes, then the version-dependent
count (64-bit field at 247 when versionMajor >= 1 and versionMinor >= 4,
else the legacy 32-bit field at 107). -/
def parseHeaderPrefix (buf : List Nat) :
    Except ParseErr (List Nat × Nat × Nat × Nat) := do
  let fileSignature ← rdStr buf 0 4
  let _ ← checkSignature fileSignature
  let versionMajor ← rdLE buf 24 1
  let versionMinor ← rdLE buf 25 1
  let numberOfPointRecords ←
    if 1 ≤ versionMajor ∧ 4 ≤ versionMinor then rdLE buf 247 8
    else rdLE buf 107 4
  pure (fileSignature, versionMajor, versionMinor, numberOfPointRecords)

/-- Fixed-offset scalar fields of the header record literal (lines
203-216), in source order. -/
def parseHeaderScalars (buf : List Nat) :
    Except ParseErr (Nat × Nat × List Nat × List Nat × List Nat × Nat × Nat ×
      Nat × Nat × Nat × Nat × Nat) := do
  let fileSourceId ← rdLE buf 4 2
  let globalEncoding ← rdLE buf 6 2
  let projectIdGuid ← rdGuid buf 8
  let systemIdentifier ← rdStr buf 26 32
  let generatingSoftware ← rdStr buf 58 32
  let creationDayOfYear ← rdLE buf 90 2
  let creationYear ← rdLE buf 92 2
  let headerSize ← rdLE buf 94 2
  let offsetToPointData ← rdLE buf 96 4
  let numberOfVariableLengthRecords ← rdLE buf 100 4
  let pointDataRecordFormat ← rdLE buf 104 1
  let pointDataRecordLength ← rdLE buf 105 2
  pure (fileSourceId, globalEncoding, projectIdGuid, systemIdentifier,
    generatingSoftware, creationDayOfYear, creationYear, headerSize,
    offsetToPointData, numberOfVariableLengthRecords, pointDataRecordFormat,
    pointDataRecordLength)

/-- Scale/offset float64 fields of the header (lines 231-236). -/
def parseHeaderScales (f64 : Nat → ℚ) (buf : List Nat) :
    Except ParseErr (ℚ × ℚ × ℚ × ℚ × ℚ × ℚ) := do
  let xScaleFactor ← rdF64 f64 buf 131
  let yScaleFactor ← rdF64 f64 buf 139
  let zScaleFactor ← rdF64 f64 buf 147
  let xOffset ← rdF64 f64 buf 155
  let yOffset ← rdF64 f64 buf 163
  let zOffset ← rdF64 f64 buf 171
  pure (xScaleFactor, yScaleFactor, zScaleFactor, xOffset, yOffset, zOffset)

/-- Min/max bound float64 fields of the header (lines 237-242). -/
def parseHeaderBounds (f64 : Nat → ℚ) (buf : List Nat) :
    Except ParseErr (ℚ × ℚ × ℚ × ℚ × ℚ × ℚ) := do
  let maxX ← rdF64 f64 buf 179
  let minX ← rdF64 f64 buf 187
  let maxY ← rdF64 f64 buf 195
  let minY ← rdF64 f64 buf 203
  let maxZ ← rdF64 f64 buf 211
  let minZ ← rdF64 f64 buf 219
  pure (maxX, minX, maxY, minY, maxZ, minZ)

/-- Header decoder of src/LasFileParser.ts, parseHeader (lines 180-244):
signature check, version-dependent point-count selection, then the
fixed-offset field reads, grouped as above in source order. -/
def parseHeader (f64 : Nat → ℚ) (buf : List Nat) : Except ParseErr LasHeader := do
  let (fileSignature, versionMajor, versionMinor, numberOfPointRecords) ←
    parseHeaderPrefix buf
  let (fileSourceId, globalEncoding, projectIdGuid, systemIdentifier,
    generatingSoftware, creationDayOfYear, creationYear, headerSize,
    offsetToPointData, numberOfVariableLengthRecords, pointDataRecordFormat,
    pointDataRecordLength) ← parseHeaderScalars buf
  let numberOfPointsByReturn ←
    if 1 ≤ versionMajor ∧ 4 ≤ versionMinor then readReturnCounts buf 255 8
    else readReturnCounts buf 111 4
  let (xScaleFactor, yScaleFactor, zScaleFactor, xOffset, yOffset, zOffset) ←
    parseHeaderScales f64 buf
  let (maxX, minX, maxY, minY, maxZ, minZ) ← parseHeaderBounds f64 buf
  pure {
    fileSignature := fileSignature
    fileSourceId := fileSourceId
    globalEncoding := globalEncoding
    projectIdGuid := projectIdGuid
    versionMajor := versionMajor
    versionMinor := versionMinor
    systemIdentifier := systemIdentifier
    generatingSoftware := generatingSoftware
    creationDayOfYear := creationDayOfYear
    creationYear := creationYear
    headerSize := headerSize
    offsetToPointData := offsetToPointData
    numberOfVariableLengthRecords := numberOfVariableLengthRecords
    pointDataRecordFormat := pointDataRecordFormat
    pointDataRecordLength := pointDataRecordLength
    numberOfPointRecords := numberOfPointRecords
    numberOfPointsByReturn := numberOfPointsByReturn
    xScaleFactor := xScaleFactor
    yScaleFactor := yScaleFactor
    zScaleFactor := zScaleFactor
    xOffset := xOffset
    yOffset := yOffset
    zOffset := zOffset
    maxX := maxX
    minX := minX
    maxY := maxY
    minY := minY
    maxZ := maxZ
    minZ := minZ }

end LasFileParser

/-- Bounding box of the statistics accumulator (all-zero at construction). -/
structure BoundingBox where
  minX : ℚ
  maxX : ℚ
  minY : ℚ
  maxY : ℚ
  minZ : ℚ
  maxZ : ℚ
deriving Repr, DecidableEq

/-- Intensity range of the statistics accumulator. -/
structure IntensityRange where
  min : Nat
  max : Nat
deriving Repr, DecidableEq

/-- Statistics bag of the parser instance (LasFileParser.statistics).
classificationCounts models the Record of counts as a total function with
default 0 (a missing key reads as 0 via the || 0 of the source). -/
structure Statistics where
  totalPoints : Nat
  boundingBox : BoundingBox
  intensityRange : IntensityRange
  classificationCounts : Nat → Nat

/-- Statistics as the LasFileParser constructor initializes them
(lines 114-135): every numeric field 0, no classification buckets. -/
def initialStatistics : Statistics :=
  { totalPoints := 0
    boundingBox := { minX := 0, maxX := 0, minY := 0, maxY := 0, minZ := 0, maxZ := 0 }
    intensityRange := { min := 0, max := 0 }
    classificationCounts := fun _ => 0 }

/-- Increment of a classification bucket:
counts[c] = (counts[c] || 0) + 1. -/
def bump (counts : Nat → Nat) (c : Nat) : Nat → Nat :=
  fun k => if k = c then counts c + 1 else counts k

namespace LasFileParser

/-- First pass of parsePoints (lines 252-267): for each declared record in
order, stop (break) when the record does not fit in the buffer, otherwise
count the byte at offset + 16 as a classification. i is the loop index, n
the records still to visit. -/
def statsPass (buf : List Nat) (h : LasHeader) :
    Nat → Nat → (Nat → Nat) → Except ParseErr (Nat → Nat)
  | _, 0, counts => .ok counts
  | i, n + 1, counts =>
    let off := h.offsetToPointData + i * h.pointDataRecordLength
    if off + h.pointDataRecordLength > buf.length then .ok counts
    else
      match readU8 buf (off + 16) with
      | none => .error .outOfBounds
      | some c => statsPass buf h (i + 1) n (bump counts c)

/-- Second pass of parsePoints (lines 275-289): same break condition, each
fitting record decoded with parsePoint and pushed; a decode throw
(RangeError) propagates. -/
def readPass (f64 : Nat → ℚ) (buf : List Nat) (h : LasHeader) :
    Nat → Nat → Except ParseErr (List LasPoint)
  | _, 0 => .ok []
  | i, n + 1 =>
    let off := h.offsetToPointData + i * h.pointDataRecordLength
    if off + h.pointDataRecordLength > buf.length then .ok []
    else
      match parsePoint f64 buf off h with
      | none => .error .outOfBounds
      | some p => (readPass f64 buf h (i + 1) n).map (fun ps => p :: ps)

/-- parsePoints of src/LasFileParser.ts (lines 246-299): statistics pass,
then the point-reading pass, then totalPoints is set to the declared
record count. The statistics bag is threaded explicitly (the source
mutates this.statistics). -/
def parsePoints (f64 : Nat → ℚ) (h : LasHeader) (buf : List Nat)
    (stats : Statistics) : Except ParseErr (List LasPoint × Statistics) := do
  let counts ← statsPass buf h 0 h.numberOfPointRecords stats.classificationCounts
  let points ← readPass f64 buf h 0 h.numberOfPointRecords
  pure (points,
    { stats with
        classificationCounts := counts
        totalPoints := h.numberOfPointRecords })

end LasFileParser

/-- Geographic info detectUTMZone returns (interface CoordinateInfo);
the nested centerLatLon/bounds objects are flattened into fields. -/
structure CoordinateInfo where
  utmZone : Nat
  hemisphereNorth : Bool
  centerLatitude : ℚ
  centerLongitude : ℚ
  minLat : ℚ
  maxLat : ℚ
  minLon : ℚ
  maxLon : ℚ
deriving Repr, DecidableEq

/-- Final dataset of a parse (interface LasData); the source nests
coordinateInfo inside statistics, modelled here as a sibling field. -/
structure LasData where
  header : LasHeader
  points : List LasPoint
  statistics : Statistics
  coordinateInfo : Option CoordinateInfo

namespace LasFileParser

/-- detectUTMZone of src/LasFileParser.ts (lines 356-394): reproject the
centroid and the min/max corners through the external projection engine
(proj : (x, y) to (lon, lat); a throw from proj4 is modelled as none and
surfaces as reprojectionError, which the catch of parse rethrows). The
corner coordinates are re-read from the raw buffer at the header float
offsets, as the source does. -/
def detectUTMZone (proj : ℚ × ℚ → Option (ℚ × ℚ)) (f64 : Nat → ℚ)
    (buf : List Nat) (centerX centerY : ℚ) : Except ParseErr CoordinateInfo := do
  let center ← match proj (centerX, centerY) with
    | some v => Except.ok v
    | none => Except.error ParseErr.reprojectionError
  let minXv ← rdF64 f64 buf 187
  let minYv ← rdF64 f64 buf 203
  let mins ← match proj (minXv, minYv) with
    | some v => Except.ok v
    | none => Except.error ParseErr.reprojectionError
  let maxXv ← rdF64 f64 buf 179
  let maxYv ← rdF64 f64 buf 195
  let maxs ← match proj (maxXv, maxYv) with
    | some v => Except.ok v
    | none => Except.error ParseErr.reprojectionError
  pure {
    utmZone := 0
    hemisphereNorth := true
    centerLatitude := center.2
    centerLongitude := center.1
    minLat := mins.2
    maxLat := maxs.2
    minLon := mins.1
    maxLon := maxs.1 }

/-- parse of src/LasFileParser.ts (lines 151-178): initializeDataView's
empty-buffer guard, header, points, then the coordinate info; the catch
only rethrows, so any failure of a step (the reprojection included)
propagates out of parse. -/
def parse (proj : ℚ × ℚ → Option (ℚ × ℚ)) (f64 : Nat → ℚ) (buf : List Nat) :
    Except ParseErr LasData := do
  let _ ← if buf.length = 0 then Except.error ParseErr.emptyBuffer
          else Except.ok ()
  let header ← parseHeader f64 buf
  let ps ← parsePoints f64 header buf initialStatistics
  let coordinateInfo ← detectUTMZone proj f64 buf
    ((header.maxX + header.minX) / 2) ((header.maxY + header.minY) / 2)
  pure {
    header := header
    points := ps.1
    statistics := ps.2
    coordinateInfo := some coordinateInfo }

end LasFileParser

namespace LazFileParser

/-- updateStatistics of the LazFileParser variant (laz-perf.d.ts appended
text, lines 187-207): bump the classification bucket, narrow-or-keep the
intensity range, widen the bounding box with Math.min/Math.max. -/
def updateStatistics (st : Statistics) (p : LasPoint) : Statistics :=
  { st with
    classificationCounts := bump st.classificationCounts p.classification
    intensityRange :=
      { min := if p.intensity < st.intensityRange.min then p.intensity
               else st.intensityRange.min
        max := if p.intensity > st.intensityRange.max then p.intensity
               else st.intensityRange.max }
    boundingBox :=
      { minX := min st.boundingBox.minX p.x
        maxX := max st.boundingBox.maxX p.x
        minY := min st.boundingBox.minY p.y
        maxY := max st.boundingBox.maxY p.y
        minZ := min st.boundingBox.minZ p.z
        maxZ := max st.boundingBox.maxZ p.z } }

/-- parsePoints of the LazFileParser variant (laz-perf.d.ts appended text,
lines 143-185): for each of the declared records the codec decompresses
one raw record window (getRecord i models the bytes copied back out of
the codec arena), which is decoded with this class's parsePoint and
folded into the statistics. A decode throw propagates (the finally only
frees arena memory). -/
def parsePoints (f64 : Nat → ℚ) (getRecord : Nat → List Nat) (h : LasHeader) :
    Nat → Nat → Statistics → Except ParseErr (List LasPoint × Statistics)
  | _, 0, st => .ok ([], st)
  | i, n + 1, st =>
    match parsePoint f64 (getRecord i) 0 h with
    | none => .error .outOfBounds
    | some p =>
      (parsePoints f64 getRecord h (i + 1) n (updateStatistics st p)).map
        (fun r => (p :: r.1, r.2))

end LazFileParser

/-- Values of the nine fixed reads of the plain decoder, as a total tuple. -/
def corePointAt (view : List Nat) (off : Nat) :
    Int × Int × Int × Nat × Nat × Nat × Int × Nat × Nat :=
  (toInt32 (leField view (off + 0) 4), toInt32 (leField view (off + 4) 4),
   toInt32 (leField view (off + 8) 4), leField view (off + 12) 2,
   leField view (off + 14) 1, leField view (off + 16) 1,
   toInt8 (leField view (off + 17) 1), leField view (off + 18) 1,
   leField view (off + 19) 2)

/-- Largest window offset (exclusive) the plain decoder touches for a given
format code: 21 bytes of fixed fields (the point-source-id u16 at 19 ends
at 21), the GPS double ending at 28 for formats 1 and 3, the RGB words
ending at 26 for format 2 and at 34 for format 3. -/
def readExtent (fmt : Nat) : Nat :=
  if fmt = 3 then 34 else if fmt = 2 then 26 else if fmt = 1 then 28 else 21

/-- Point the plain decoder yields, as a total function of the window
(the field-by-field reading of parsePoint). -/
def decodedPoint (f64 : Nat → ℚ) (view : List Nat) (off : Nat) (h : LasHeader) :
    LasPoint :=
  { x := (toInt32 (leField view (off + 0) 4) : ℚ) * h.xScaleFactor + h.xOffset
    y := (toInt32 (leField view (off + 4) 4) : ℚ) * h.yScaleFactor + h.yOffset
    z := (toInt32 (leField view (off + 8) 4) : ℚ) * h.zScaleFactor + h.zOffset
    intensity := leField view (off + 12) 2
    returnNumber := leField view (off + 14) 1 % 8
    numberOfReturns := leField view (off + 14) 1 / 8 % 8
    scanDirectionFlag := leField view (off + 14) 1 / 64 % 2
    edgeOfFlightLine := leField view (off + 14) 1 / 128 % 2
    classification := leField view (off + 16) 1
    scanAngleRank := toInt8 (leField view (off + 17) 1)
    userData := leField view (off + 18) 1
    pointSourceId := leField view (off + 19) 2
    gpsTime :=
      if h.pointDataRecordFormat = 1 ∨ h.pointDataRecordFormat = 3 then
        some (f64 (leField view (off + 20) 8))
      else none
    red :=
      if h.pointDataRecordFormat = 2 ∨ h.pointDataRecordFormat = 3 then
        some (leField view (off + (if h.pointDataRecordFormat = 3 then 28 else 20)) 2)
      else none
    green :=
      if h.pointDataRecordFormat = 2 ∨ h.pointDataRecordFormat = 3 then
        some (leField view (off + (if h.pointDataRecordFormat = 3 then 30 else 22)) 2)
      else none
    blue :=
      if h.pointDataRecordFormat = 2 ∨ h.pointDataRecordFormat = 3 then
        some (leField view (off + (if h.pointDataRecordFormat = 3 then 32 else 24)) 2)
      else none }

/-- Concrete float interpretation used by witnesses (every pattern read as 0). -/
def f64c : Nat → ℚ := fun _ => 0

/-- Buffer of the given length whose byte at each listed index is the paired
value, 0 elsewhere. -/
def buildBuf (len : Nat) (a : List (Nat × Nat)) : List Nat :=
  (List.range len).map (fun i => ((a.lookup i).getD 0))

/-- Header fixture: format fmt, record length ps, n declared records, point
data at offset 0, unit scales, zero offsets. -/
def mkTestHeader (fmt ps n : Nat) : LasHeader :=
  { fileSignature := lasfSignature
    fileSourceId := 0
    globalEncoding := 0
    projectIdGuid := []
    versionMajor := 1
    versionMinor := 2
    systemIdentifier := []
    generatingSoftware := []
    creationDayOfYear := 0
    creationYear := 0
    headerSize := 227
    offsetToPointData := 0
    numberOfVariableLengthRecords := 0
    pointDataRecordFormat := fmt
    pointDataRecordLength := ps
    numberOfPointRecords := n
    numberOfPointsByReturn := [0, 0, 0, 0, 0]
    xScaleFactor := 1
    yScaleFactor := 1
    zScaleFactor := 1
    xOffset := 0
    yOffset := 0
    zOffset := 0
    maxX := 0
    minX := 0
    maxY := 0
    minY := 0
    maxZ := 0
    minZ := 0 }

/-- All-zero point, used as a fallback when projecting decode results. -/
def defaultPoint : LasPoint :=
  { x := 0, y := 0, z := 0, intensity := 0, returnNumber := 0
    numberOfReturns := 0, scanDirectionFlag := 0, edgeOfFlightLine := 0
    classification := 0, scanAngleRank := 0, userData := 0, pointSourceId := 0
    gpsTime := none, red := none, green := none, blue := none }

/-- Window marking bytes 15..20 with distinct values 11,22,33,44,55,66. -/
def wC1 : List Nat :=
  buildBuf 21 [(15, 11), (16, 22), (17, 33), (18, 44), (19, 55), (20, 66)]

/-- Window fixture for the C6 witness: raw x 100, raw y 200, raw z 300,
intensity 7, flag byte 234 = 0b11101010. -/
def wC6 : List Nat :=
  buildBuf 21 [(0, 100), (4, 200), (8, 44), (12, 7), (14, 234), (16, 2)]

/-- Decode of the C6 fixture. -/
def pC6 : LasPoint :=
  (LasFileParser.parsePoint f64c wC6 0 (mkTestHeader 0 21 1)).getD defaultPoint

/-- Format-3 window fixture for the C7 witness (34 bytes, RGB populated). -/
def wC7 : List Nat :=
  buildBuf 34 [(28, 9), (30, 8), (32, 7)]

/-- Decode of the C7 fixture under a format-3 header. -/
def pC7 : LasPoint :=
  (LasFileParser.parsePoint f64c wC7 0 (mkTestHeader 3 34 1)).getD defaultPoint

/-- Prefix tuple a successful parseHeaderPrefix yields. -/
def headerPrefixAt (buf : List Nat) : List Nat × Nat × Nat × Nat :=
  (strField buf 0 4, leField buf 24 1, leField buf 25 1,
    if las14OfBuf buf then leField buf 247 8 else leField buf 107 4)

/-- Scalar tuple a successful parseHeaderScalars yields. -/
def headerScalarsAt (buf : List Nat) :
    Nat × Nat × List Nat × List Nat × List Nat × Nat × Nat × Nat × Nat × Nat ×
      Nat × Nat :=
  (leField buf 4 2, leField buf 6 2, bytesAt buf 8 16, strField buf 26 32,
   strField buf 58 32, leField buf 90 2, leField buf 92 2, leField buf 94 2,
   leField buf 96 4, leField buf 100 4, leField buf 104 1, leField buf 105 2)

/-- Scale/offset tuple a successful parseHeaderScales yields. -/
def headerScalesAt (f64 : Nat → ℚ) (buf : List Nat) : ℚ × ℚ × ℚ × ℚ × ℚ × ℚ :=
  (f64 (leField buf 131 8), f64 (leField buf 139 8), f64 (leField buf 147 8),
   f64 (leField buf 155 8), f64 (leField buf 163 8), f64 (leField buf 171 8))

/-- Min/max tuple a successful parseHeaderBounds yields. -/
def headerBoundsAt (f64 : Nat → ℚ) (buf : List Nat) : ℚ × ℚ × ℚ × ℚ × ℚ × ℚ :=
  (f64 (leField buf 179 8), f64 (leField buf 187 8), f64 (leField buf 195 8),
   f64 (leField buf 203 8), f64 (leField buf 211 8), f64 (leField buf 219 8))

/-- Buffer fixture: 250 bytes, LASF magic, version 1.4 (bytes 24/25). -/
def bufC5 : List Nat :=
  buildBuf 250 [(0, 76), (1, 65), (2, 83), (3, 70), (24, 1), (25, 4)]

/-- Buffer fixture: 295 bytes, LASF magic, version bytes 2.0, legacy 32-bit
count 5 at offset 107, extended 64-bit count 7 at offset 247. -/
def bufC4 : List Nat :=
  buildBuf 295 [(0, 76), (1, 65), (2, 83), (3, 70), (24, 2), (107, 5), (247, 7)]

/-- Buffer fixture: 295 bytes, LASF magic, version 1.4, legacy 32-bit count
0, extended 64-bit count 9 at offset 247. -/
def bufW14 : List Nat :=
  buildBuf 295 [(0, 76), (1, 65), (2, 83), (3, 70), (24, 1), (25, 4), (247, 9)]

/-- Header decoded from bufW14. -/
def hdrW14 : LasHeader :=
  (LasFileParser.parseHeader f64c bufW14).toOption.getD (mkTestHeader 0 0 0)

/-- Format-0 header fixture with record length 20 (the public format-0
length) and 2 declared records. -/
def hdrC3 : LasHeader := mkTestHeader 0 20 2

/-- Buffer fixture: exactly one complete 20-byte record, all zero. -/
def bufC3 : List Nat := buildBuf 20 []

/-- Result of the plain pass on a single all-zero 21-byte record. -/
def rW10 : List LasPoint × Statistics :=
  (LasFileParser.parsePoints f64c (mkTestHeader 0 21 1) (buildBuf 21 [])
    initialStatistics).toOption.getD ([], initialStatistics)

/-- Record window fixture: raw x = 100 (bytes 0..3), all else zero. -/
def bufC2 : List Nat := buildBuf 21 [(0, 100)]

/-- Result of the plain pass on bufC2 (one point with x = 100 under unit
scale and zero offset). -/
def rC2 : List LasPoint × Statistics :=
  (LasFileParser.parsePoints f64c (mkTestHeader 0 21 1) bufC2
    initialStatistics).toOption.getD ([], initialStatistics)

/-- First decoded point of rC2. -/
def pC2 : LasPoint := rC2.1.getD 0 defaultPoint

/-- One point of a list lies inside a bounding box, axis by axis. -/
def bbContains (bb : BoundingBox) (p : LasPoint) : Prop :=
  bb.minX ≤ p.x ∧ p.x ≤ bb.maxX ∧ bb.minY ≤ p.y ∧ p.y ≤ bb.maxY ∧
    bb.minZ ≤ p.z ∧ p.z ≤ bb.maxZ

/-- Every point of the list lies inside the bounding box. -/
def bbInvariant (pts : List LasPoint) (st : Statistics) : Prop :=
  ∀ p ∈ pts, bbContains st.boundingBox p

/-- One bounding box contains another (per-axis widening order). -/
def bbExtends (b2 b1 : BoundingBox) : Prop :=
  b2.minX ≤ b1.minX ∧ b1.maxX ≤ b2.maxX ∧ b2.minY ≤ b1.minY ∧
    b1.maxY ≤ b2.maxY ∧ b2.minZ ≤ b1.minZ ∧ b1.maxZ ≤ b2.maxZ

/-- Result of the compressed path on one decompressed record with x = 100. -/
def rL : List LasPoint × Statistics :=
  (LazFileParser.parsePoints f64c (fun _ => bufC2) (mkTestHeader 0 21 1) 0 1
    initialStatistics).toOption.getD ([], initialStatistics)

/-- Buffer fixture: a minimal valid 227-byte LAS 1.2 header, LASF magic,
zero declared points. -/
def bufV : List Nat :=
  buildBuf 227 [(0, 76), (1, 65), (2, 83), (3, 70), (24, 1), (25, 2)]

/-- Header decoded from bufV. -/
def hdrV : LasHeader :=
  (LasFileParser.parseHeader f64c bufV).toOption.getD (mkTestHeader 0 0 0)

/-- Point-pass result on bufV (no declared points). -/
def rV : List LasPoint × Statistics :=
  (LasFileParser.parsePoints f64c hdrV bufV
    initialStatistics).toOption.getD ([], initialStatistics)

lemma optBind_some_elim {α β : Type} {o : Option α} {f : α → Option β} {b : β}
    (H : o >>= f = some b) : ∃ a, o = some a ∧ f a = some b := by
  cases o with
  | none => exact absurd H (by simp)
  | some a => exact ⟨a, rfl, H⟩

lemma readLE_eq_some_iff {buf : List Nat} {off n v : Nat} :
    readLE buf off n = some v ↔ off + n ≤ buf.length ∧ v = leField buf off n := by
  unfold readLE readBytes
  split <;> simp [leField, eq_comm] <;> omega

lemma readI32_eq_some_iff {buf : List Nat} {off : Nat} {v : Int} :
    readI32 buf off = some v ↔
      off + 4 ≤ buf.length ∧ v = toInt32 (leField buf off 4) := by
  unfold readI32
  constructor
  · intro H
    obtain ⟨w, hw, hv⟩ := by simpa using (Option.map_eq_some'.mp H)
    obtain ⟨hle, hwv⟩ := readLE_eq_some_iff.mp hw
    exact ⟨hle, by rw [← hv, hwv]⟩
  · rintro ⟨hle, rfl⟩
    rw [readLE_eq_some_iff.mpr ⟨hle, rfl⟩]; rfl

lemma readI8_eq_some_iff {buf : List Nat} {off : Nat} {v : Int} :
    readI8 buf off = some v ↔
      off + 1 ≤ buf.length ∧ v = toInt8 (leField buf off 1) := by
  unfold readI8
  constructor
  · intro H
    obtain ⟨w, hw, hv⟩ := by simpa using (Option.map_eq_some'.mp H)
    obtain ⟨hle, hwv⟩ := readLE_eq_some_iff.mp hw
    exact ⟨hle, by rw [← hv, hwv]⟩
  · rintro ⟨hle, rfl⟩
    rw [readLE_eq_some_iff.mpr ⟨hle, rfl⟩]; rfl

lemma readU8_eq_some_iff {buf : List Nat} {off v : Nat} :
    readU8 buf off = some v ↔ off + 1 ≤ buf.length ∧ v = leField buf off 1 :=
  readLE_eq_some_iff

lemma readU16_eq_some_iff {buf : List Nat} {off v : Nat} :
    readU16 buf off = some v ↔ off + 2 ≤ buf.length ∧ v = leField buf off 2 :=
  readLE_eq_some_iff

lemma readF64_eq_some_iff {f64 : Nat → ℚ} {buf : List Nat} {off : Nat} {v : ℚ} :
    readF64 f64 buf off = some v ↔
      off + 8 ≤ buf.length ∧ v = f64 (leField buf off 8) := by
  unfold readF64
  constructor
  · intro H
    obtain ⟨w, hw, hv⟩ := by simpa using (Option.map_eq_some'.mp H)
    obtain ⟨hle, hwv⟩ := readLE_eq_some_iff.mp hw
    exact ⟨hle, by rw [← hv, hwv]⟩
  · rintro ⟨hle, rfl⟩
    rw [readLE_eq_some_iff.mpr ⟨hle, rfl⟩]; rfl

lemma parsePointCore_some_elim {view : List Nat} {off : Nat}
    {t : Int × Int × Int × Nat × Nat × Nat × Int × Nat × Nat}
    (H : LasFileParser.parsePointCore view off = some t) :
    off + 21 ≤ view.length ∧ t = corePointAt view off := by
  unfold LasFileParser.parsePointCore at H
  obtain ⟨xv, hx, H⟩ := optBind_some_elim H
  obtain ⟨yv, hy, H⟩ := optBind_some_elim H
  obtain ⟨zv, hz, H⟩ := optBind_some_elim H
  obtain ⟨iv, hi, H⟩ := optBind_some_elim H
  obtain ⟨rv, hr, H⟩ := optBind_some_elim H
  obtain ⟨cv, hc, H⟩ := optBind_some_elim H
  obtain ⟨sv, hs, H⟩ := optBind_some_elim H
  obtain ⟨uv, hu, H⟩ := optBind_some_elim H
  obtain ⟨pv, hp, H⟩ := optBind_some_elim H
  obtain ⟨hbx, rfl⟩ := readI32_eq_some_iff.mp hx
  obtain ⟨hby, rfl⟩ := readI32_eq_some_iff.mp hy
  obtain ⟨hbz, rfl⟩ := readI32_eq_some_iff.mp hz
  obtain ⟨hbi, rfl⟩ := readU16_eq_some_iff.mp hi
  obtain ⟨hbr, rfl⟩ := readU8_eq_some_iff.mp hr
  obtain ⟨hbc, rfl⟩ := readU8_eq_some_iff.mp hc
  obtain ⟨hbs, rfl⟩ := readI8_eq_some_iff.mp hs
  obtain ⟨hbu, rfl⟩ := readU8_eq_some_iff.mp hu
  obtain ⟨hbp, rfl⟩ := readU16_eq_some_iff.mp hp
  refine ⟨by omega, ?_⟩
  cases H
  rfl

lemma parsePointCore_eq_some {view : List Nat} {off : Nat}
    (hb : off + 21 ≤ view.length) :
    LasFileParser.parsePointCore view off = some (corePointAt view off) := by
  have e1 : readI32 view off = some (toInt32 (leField view off 4)) :=
    readI32_eq_some_iff.mpr ⟨by omega, rfl⟩
  have e2 : readI32 view (off + 4) = some (toInt32 (leField view (off + 4) 4)) :=
    readI32_eq_some_iff.mpr ⟨by omega, rfl⟩
  have e3 : readI32 view (off + 8) = some (toInt32 (leField view (off + 8) 4)) :=
    readI32_eq_some_iff.mpr ⟨by omega, rfl⟩
  have e4 : readU16 view (off + 12) = some (leField view (off + 12) 2) :=
    readU16_eq_some_iff.mpr ⟨by omega, rfl⟩
  have e5 : readU8 view (off + 14) = some (leField view (off + 14) 1) :=
    readU8_eq_some_iff.mpr ⟨by omega, rfl⟩
  have e6 : readU8 view (off + 16) = some (leField view (off + 16) 1) :=
    readU8_eq_some_iff.mpr ⟨by omega, rfl⟩
  have e7 : readI8 view (off + 17) = some (toInt8 (leField view (off + 17) 1)) :=
    readI8_eq_some_iff.mpr ⟨by omega, rfl⟩
  have e8 : readU8 view (off + 18) = some (leField view (off + 18) 1) :=
    readU8_eq_some_iff.mpr ⟨by omega, rfl⟩
  have e9 : readU16 view (off + 19) = some (leField view (off + 19) 2) :=
    readU16_eq_some_iff.mpr ⟨by omega, rfl⟩
  simp [LasFileParser.parsePointCore, e1, e2, e3, e4, e5, e6, e7, e8, e9,
    corePointAt]

lemma parsePoint_eq_some_of_le {f64 : Nat → ℚ} {view : List Nat} {off : Nat}
    {h : LasHeader} (hb : off + readExtent h.pointDataRecordFormat ≤ view.length) :
    LasFileParser.parsePoint f64 view off h = some (decodedPoint f64 view off h) := by
  have hb21 : off + 21 ≤ view.length := by
    unfold readExtent at hb; split_ifs at hb <;> omega
  have hcore := @parsePointCore_eq_some view off hb21
  by_cases h3 : h.pointDataRecordFormat = 3
  · have hb34 : off + 34 ≤ view.length := by simpa [readExtent, h3] using hb
    have egps : readF64 f64 view (off + 20) = some (f64 (leField view (off + 20) 8)) :=
      readF64_eq_some_iff.mpr ⟨by omega, rfl⟩
    have er : readU16 view (off + 28) = some (leField view (off + 28) 2) :=
      readU16_eq_some_iff.mpr ⟨by omega, rfl⟩
    have eg : readU16 view (off + 30) = some (leField view (off + 30) 2) :=
      readU16_eq_some_iff.mpr ⟨by omega, rfl⟩
    have eb : readU16 view (off + 32) = some (leField view (off + 32) 2) :=
      readU16_eq_some_iff.mpr ⟨by omega, rfl⟩
    simp [LasFileParser.parsePoint, hcore, corePointAt, h3, egps, er, eg, eb,
      decodedPoint]
  · by_cases h1 : h.pointDataRecordFormat = 1
    · have hb28 : off + 28 ≤ view.length := by simpa [readExtent, h1] using hb
      have egps : readF64 f64 view (off + 20) = some (f64 (leField view (off + 20) 8)) :=
        readF64_eq_some_iff.mpr ⟨by omega, rfl⟩
      simp [LasFileParser.parsePoint, hcore, corePointAt, h1, egps, decodedPoint]
    · by_cases h2 : h.pointDataRecordFormat = 2
      · have hb26 : off + 26 ≤ view.length := by simpa [readExtent, h2] using hb
        have er : readU16 view (off + 20) = some (leField view (off + 20) 2) :=
          readU16_eq_some_iff.mpr ⟨by omega, rfl⟩
        have eg : readU16 view (off + 22) = some (leField view (off + 22) 2) :=
          readU16_eq_some_iff.mpr ⟨by omega, rfl⟩
        have eb : readU16 view (off + 24) = some (leField view (off + 24) 2) :=
          readU16_eq_some_iff.mpr ⟨by omega, rfl⟩
        simp [LasFileParser.parsePoint, hcore, corePointAt, h2, er, eg, eb,
          decodedPoint]
      · simp [LasFileParser.parsePoint, hcore, corePointAt, h1, h2, h3,
          decodedPoint]

lemma parsePoint_some_elim {f64 : Nat → ℚ} {view : List Nat} {off : Nat}
    {h : LasHeader} {p : LasPoint}
    (H : LasFileParser.parsePoint f64 view off h = some p) :
    off + readExtent h.pointDataRecordFormat ≤ view.length ∧
      p = decodedPoint f64 view off h := by
  unfold LasFileParser.parsePoint at H
  obtain ⟨t, hcore, H⟩ := optBind_some_elim H
  obtain ⟨hb21, rfl⟩ := parsePointCore_some_elim hcore
  simp only [corePointAt] at H
  by_cases h3 : h.pointDataRecordFormat = 3
  · rw [if_pos (Or.inr h3 : _ ∨ h.pointDataRecordFormat = 3)] at H
    obtain ⟨g, hg, H⟩ := optBind_some_elim H
    obtain ⟨q, hq, rfl⟩ := Option.map_eq_some'.mp hg
    obtain ⟨hbq, rfl⟩ := readF64_eq_some_iff.mp hq
    rw [if_pos (Or.inr h3 : _ ∨ h.pointDataRecordFormat = 3)] at H
    simp only [if_pos h3] at H
    obtain ⟨r, hr, H⟩ := optBind_some_elim H
    obtain ⟨gg, hgg, H⟩ := optBind_some_elim H
    obtain ⟨b, hb, H⟩ := optBind_some_elim H
    obtain ⟨hbr, rfl⟩ := readU16_eq_some_iff.mp hr
    obtain ⟨hbg, rfl⟩ := readU16_eq_some_iff.mp hgg
    obtain ⟨hbb, rfl⟩ := readU16_eq_some_iff.mp hb
    obtain ⟨rgb, hrgb, H⟩ := optBind_some_elim H
    cases hrgb
    cases H
    refine ⟨by simp only [readExtent, if_pos h3]; omega, ?_⟩
    simp [decodedPoint, h3]
  · by_cases h1 : h.pointDataRecordFormat = 1
    · rw [if_pos (Or.inl h1 : h.pointDataRecordFormat = 1 ∨ _)] at H
      obtain ⟨g, hg, H⟩ := optBind_some_elim H
      obtain ⟨q, hq, rfl⟩ := Option.map_eq_some'.mp hg
      obtain ⟨hbq, rfl⟩ := readF64_eq_some_iff.mp hq
      rw [if_neg (by simp [h1, h3] : ¬(h.pointDataRecordFormat = 2 ∨ h.pointDataRecordFormat = 3))] at H
      obtain ⟨rgb, hrgb, H⟩ := optBind_some_elim H
      cases hrgb
      cases H
      refine ⟨by simp only [readExtent, if_neg h3, if_neg (by omega : ¬h.pointDataRecordFormat = 2), if_pos h1]; omega, ?_⟩
      simp [decodedPoint, h1, h3]
    · by_cases h2 : h.pointDataRecordFormat = 2
      · rw [if_neg (by simp [h1, h3] : ¬(h.pointDataRecordFormat = 1 ∨ h.pointDataRecordFormat = 3))] at H
        obtain ⟨g, hg, H⟩ := optBind_some_elim H
        cases hg
        rw [if_pos (Or.inl h2 : h.pointDataRecordFormat = 2 ∨ _)] at H
        simp only [if_neg h3] at H
        obtain ⟨r, hr, H⟩ := optBind_some_elim H
        obtain ⟨gg, hgg, H⟩ := optBind_some_elim H
        obtain ⟨b, hb, H⟩ := optBind_some_elim H
        obtain ⟨hbr, rfl⟩ := readU16_eq_some_iff.mp hr
        obtain ⟨hbg, rfl⟩ := readU16_eq_some_iff.mp hgg
        obtain ⟨hbb, rfl⟩ := readU16_eq_some_iff.mp hb
        obtain ⟨rgb, hrgb, H⟩ := optBind_some_elim H
        cases hrgb
        cases H
        refine ⟨by simp only [readExtent, if_neg h3, if_pos h2]; omega, ?_⟩
        simp [decodedPoint, h2, h3, h1]
      · rw [if_neg (by simp [h1, h3] : ¬(h.pointDataRecordFormat = 1 ∨ h.pointDataRecordFormat = 3))] at H
        obtain ⟨g, hg, H⟩ := optBind_some_elim H
        cases hg
        rw [if_neg (by simp [h2, h3] : ¬(h.pointDataRecordFormat = 2 ∨ h.pointDataRecordFormat = 3))] at H
        obtain ⟨rgb, hrgb, H⟩ := optBind_some_elim H
        cases hrgb
        cases H
        refine ⟨by simp only [readExtent, if_neg h3, if_neg h2, if_neg h1]; omega, ?_⟩
        simp [decodedPoint, h1, h2, h3]

/-- C1: for every point-record byte window and decoded header, the point
decoder reads classification at window offset 15, scan-angle-rank at 16,
user-data at 17 and point-source id at 18 (the public LAS layout), in
every parser variant. The claim holds of LazParser.parsePoint but not of
LasFileParser.parsePoint (nor of the identical LazFileParser.parsePoint):
on a window whose bytes 15..20 are 11,22,33,44,55,66, the plain decoder
returns classification 22 = byte 16 (not 11 = byte 15), scan-angle 33 =
byte 17, user-data 44 = byte 18 and point-source-id from bytes 19..20,
one byte past the public layout that LazParser decodes. -/
theorem parsePoint_offset_divergence :
    readU8 wC1 15 = some 11 ∧ readU8 wC1 16 = some 22 ∧
    (LasFileParser.parsePoint f64c wC1 0 (mkTestHeader 0 21 1)).map
        (fun p => (p.classification, p.scanAngleRank, p.userData, p.pointSourceId))
      = some (22, 33, 44, 55 + 256 * 66) ∧
    (LazFileParser.parsePoint f64c wC1 0 (mkTestHeader 0 21 1)).map
        (fun p => (p.classification, p.scanAngleRank, p.userData, p.pointSourceId))
      = some (22, 33, 44, 55 + 256 * 66) ∧
    (LazParser.parsePoint f64c wC1 0 (mkTestHeader 0 21 1)).map
        (fun p => (p.classification, p.scanAngleRank, p.userData, p.pointSourceId))
      = some (11, 22, 33, 44 + 256 * 55) := by
  decide

/-- C9: the decompression bridge's point decoder (LazFileParser.parsePoint)
yields exactly the same PointRecord as the plain decoder
(LasFileParser.parsePoint) on every window, offset and header, so mapping
the two decoders over the same decompressed record windows yields the same
point sequence. -/
theorem lazBridge_pointDecoder_agrees (f64 : Nat → ℚ) (h : LasHeader)
    (view : List Nat) (off : Nat) (ws : List (List Nat)) :
    LazFileParser.parsePoint f64 view off h = LasFileParser.parsePoint f64 view off h ∧
    ws.map (fun w => LazFileParser.parsePoint f64 w 0 h)
      = ws.map (fun w => LasFileParser.parsePoint f64 w 0 h) :=
  ⟨rfl, rfl⟩

/-- C6: for every point-record byte window and header, the decoded position
is the signed 32-bit little-endian integer at window offsets 0/4/8 times
the per-axis scale factor plus the per-axis offset, the intensity is the
unsigned 16-bit value at offset 12, and the byte at offset 14 unpacks to
return number (low 3 bits), number of returns (next 3 bits),
scan-direction flag (bit 6) and edge-of-flight-line flag (bit 7). -/
theorem pointDecode_core_fields (f64 : Nat → ℚ) (view : List Nat) (off : Nat)
    (h : LasHeader) (p : LasPoint)
    (H : LasFileParser.parsePoint f64 view off h = some p) :
    p.x = (toInt32 (leField view (off + 0) 4) : ℚ) * h.xScaleFactor + h.xOffset ∧
    p.y = (toInt32 (leField view (off + 4) 4) : ℚ) * h.yScaleFactor + h.yOffset ∧
    p.z = (toInt32 (leField view (off + 8) 4) : ℚ) * h.zScaleFactor + h.zOffset ∧
    p.intensity = leField view (off + 12) 2 ∧
    p.returnNumber = leField view (off + 14) 1 % 8 ∧
    p.numberOfReturns = leField view (off + 14) 1 / 8 % 8 ∧
    p.scanDirectionFlag = leField view (off + 14) 1 / 64 % 2 ∧
    p.edgeOfFlightLine = leField view (off + 14) 1 / 128 % 2 := by
  obtain ⟨-, rfl⟩ := parsePoint_some_elim H
  exact ⟨rfl, rfl, rfl, rfl, rfl, rfl, rfl, rfl⟩

theorem pointDecode_core_fields_witness :
    pC6.x = (toInt32 (leField wC6 (0 + 0) 4) : ℚ) * (mkTestHeader 0 21 1).xScaleFactor
        + (mkTestHeader 0 21 1).xOffset ∧
    pC6.y = (toInt32 (leField wC6 (0 + 4) 4) : ℚ) * (mkTestHeader 0 21 1).yScaleFactor
        + (mkTestHeader 0 21 1).yOffset ∧
    pC6.z = (toInt32 (leField wC6 (0 + 8) 4) : ℚ) * (mkTestHeader 0 21 1).zScaleFactor
        + (mkTestHeader 0 21 1).zOffset ∧
    pC6.intensity = leField wC6 (0 + 12) 2 ∧
    pC6.returnNumber = leField wC6 (0 + 14) 1 % 8 ∧
    pC6.numberOfReturns = leField wC6 (0 + 14) 1 / 8 % 8 ∧
    pC6.scanDirectionFlag = leField wC6 (0 + 14) 1 / 64 % 2 ∧
    pC6.edgeOfFlightLine = leField wC6 (0 + 14) 1 / 128 % 2 :=
  pointDecode_core_fields f64c wC6 0 (mkTestHeader 0 21 1) pC6 rfl

/-- C7: for every point-record byte window and header, the decoded record
carries a GPS time exactly when the header's point format code is 1 or 3,
and red/green/blue exactly when it is 2 or 3 (so a format-0 decode carries
neither). -/
theorem optional_fields_by_format (f64 : Nat → ℚ) (view : List Nat) (off : Nat)
    (h : LasHeader) (p : LasPoint)
    (H : LasFileParser.parsePoint f64 view off h = some p) :
    (p.gpsTime.isSome ↔ (h.pointDataRecordFormat = 1 ∨ h.pointDataRecordFormat = 3)) ∧
    (p.red.isSome ↔ (h.pointDataRecordFormat = 2 ∨ h.pointDataRecordFormat = 3)) ∧
    (p.green.isSome ↔ (h.pointDataRecordFormat = 2 ∨ h.pointDataRecordFormat = 3)) ∧
    (p.blue.isSome ↔ (h.pointDataRecordFormat = 2 ∨ h.pointDataRecordFormat = 3)) := by
  obtain ⟨-, rfl⟩ := parsePoint_some_elim H
  refine ⟨?_, ?_, ?_, ?_⟩ <;>
    · simp only [decodedPoint]
      split <;> simp_all

theorem optional_fields_by_format_witness :
    (pC7.gpsTime.isSome ↔ ((mkTestHeader 3 34 1).pointDataRecordFormat = 1 ∨
        (mkTestHeader 3 34 1).pointDataRecordFormat = 3)) ∧
    (pC7.red.isSome ↔ ((mkTestHeader 3 34 1).pointDataRecordFormat = 2 ∨
        (mkTestHeader 3 34 1).pointDataRecordFormat = 3)) ∧
    (pC7.green.isSome ↔ ((mkTestHeader 3 34 1).pointDataRecordFormat = 2 ∨
        (mkTestHeader 3 34 1).pointDataRecordFormat = 3)) ∧
    (pC7.blue.isSome ↔ ((mkTestHeader 3 34 1).pointDataRecordFormat = 2 ∨
        (mkTestHeader 3 34 1).pointDataRecordFormat = 3)) :=
  optional_fields_by_format f64c wC7 0 (mkTestHeader 3 34 1) pC7 rfl

@[simp] lemma exceptOk_bind {α β : Type} (a : α) (k : α → Except ParseErr β) :
    (Except.ok a >>= k) = k a := rfl

@[simp] lemma exceptError_bind {α β : Type} (e : ParseErr) (k : α → Except ParseErr β) :
    ((Except.error e : Except ParseErr α) >>= k) = Except.error e := rfl

@[simp] lemma exceptPure_eq_ok {α : Type} (a : α) :
    (pure a : Except ParseErr α) = Except.ok a := rfl

lemma excBind_ok_elim {α β : Type} {x : Except ParseErr α}
    {k : α → Except ParseErr β} {b : β} (H : x >>= k = .ok b) :
    ∃ a, x = .ok a ∧ k a = .ok b := by
  cases x with
  | error e => exact absurd H (by simp [Bind.bind, Except.bind])
  | ok a => exact ⟨a, rfl, H⟩

lemma rdLE_ok_iff {buf : List Nat} {off n v : Nat} :
    rdLE buf off n = .ok v ↔ off + n ≤ buf.length ∧ v = leField buf off n := by
  unfold rdLE
  split <;> simp [eq_comm] <;> omega

lemma rdStr_ok_iff {buf : List Nat} {off n : Nat} {v : List Nat} :
    rdStr buf off n = .ok v ↔ off + n ≤ buf.length ∧ v = strField buf off n := by
  unfold rdStr
  split <;> simp [eq_comm] <;> omega

lemma rdGuid_ok_iff {buf : List Nat} {off : Nat} {v : List Nat} :
    rdGuid buf off = .ok v ↔ off + 16 ≤ buf.length ∧ v = bytesAt buf off 16 := by
  unfold rdGuid
  split <;> simp [eq_comm] <;> omega

lemma rdF64_ok_iff {f64 : Nat → ℚ} {buf : List Nat} {off : Nat} {v : ℚ} :
    rdF64 f64 buf off = .ok v ↔
      off + 8 ≤ buf.length ∧ v = f64 (leField buf off 8) := by
  unfold rdF64 rdLE
  split <;> simp [Except.map, eq_comm] <;> omega

lemma checkSignature_ok_elim {s : List Nat} {u : Unit}
    (H : checkSignature s = .ok u) : s = lasfSignature := by
  unfold checkSignature at H
  by_cases hs : s = lasfSignature
  · exact hs
  · rw [if_pos hs] at H
    exact absurd H (by simp)

lemma checkSignature_eq_ok {s : List Nat} (hs : s = lasfSignature) :
    checkSignature s = .ok () := by
  unfold checkSignature
  rw [if_neg (by simp [hs])]

lemma readReturnCounts_ok_elim {buf : List Nat} {base sz : Nat} {l : List Nat}
    (H : readReturnCounts buf base sz = .ok l) :
    base + 4 * sz + sz ≤ buf.length ∧
      l = [leField buf base sz, leField buf (base + sz) sz,
           leField buf (base + 2 * sz) sz, leField buf (base + 3 * sz) sz,
           leField buf (base + 4 * sz) sz] := by
  unfold readReturnCounts at H
  obtain ⟨a1, h1, H⟩ := excBind_ok_elim H
  obtain ⟨a2, h2, H⟩ := excBind_ok_elim H
  obtain ⟨a3, h3, H⟩ := excBind_ok_elim H
  obtain ⟨a4, h4, H⟩ := excBind_ok_elim H
  obtain ⟨a5, h5, H⟩ := excBind_ok_elim H
  obtain ⟨hb1, rfl⟩ := rdLE_ok_iff.mp h1
  obtain ⟨hb2, rfl⟩ := rdLE_ok_iff.mp h2
  obtain ⟨hb3, rfl⟩ := rdLE_ok_iff.mp h3
  obtain ⟨hb4, rfl⟩ := rdLE_ok_iff.mp h4
  obtain ⟨hb5, rfl⟩ := rdLE_ok_iff.mp h5
  cases H
  exact ⟨by omega, rfl⟩

lemma readReturnCounts_eq_ok {buf : List Nat} {base sz : Nat}
    (hb : base + 4 * sz + sz ≤ buf.length) :
    readReturnCounts buf base sz =
      .ok [leField buf base sz, leField buf (base + sz) sz,
           leField buf (base + 2 * sz) sz, leField buf (base + 3 * sz) sz,
           leField buf (base + 4 * sz) sz] := by
  have e1 : rdLE buf base sz = .ok (leField buf base sz) :=
    rdLE_ok_iff.mpr ⟨by omega, rfl⟩
  have e2 : rdLE buf (base + sz) sz = .ok (leField buf (base + sz) sz) :=
    rdLE_ok_iff.mpr ⟨by omega, rfl⟩
  have e3 : rdLE buf (base + 2 * sz) sz = .ok (leField buf (base + 2 * sz) sz) :=
    rdLE_ok_iff.mpr ⟨by omega, rfl⟩
  have e4 : rdLE buf (base + 3 * sz) sz = .ok (leField buf (base + 3 * sz) sz) :=
    rdLE_ok_iff.mpr ⟨by omega, rfl⟩
  have e5 : rdLE buf (base + 4 * sz) sz = .ok (leField buf (base + 4 * sz) sz) :=
    rdLE_ok_iff.mpr ⟨by omega, rfl⟩
  simp [readReturnCounts, e1, e2, e3, e4, e5]

lemma parseHeaderPrefix_ok_elim {buf : List Nat} {t : List Nat × Nat × Nat × Nat}
    (H : LasFileParser.parseHeaderPrefix buf = .ok t) :
    strField buf 0 4 = lasfSignature ∧ 26 ≤ buf.length ∧
      (if las14OfBuf buf then 255 ≤ buf.length else 111 ≤ buf.length) ∧
      t = headerPrefixAt buf := by
  unfold LasFileParser.parseHeaderPrefix at H
  obtain ⟨sig, hsig, H⟩ := excBind_ok_elim H
  obtain ⟨u, hu, H⟩ := excBind_ok_elim H
  obtain ⟨vM, hvM, H⟩ := excBind_ok_elim H
  obtain ⟨vm, hvm, H⟩ := excBind_ok_elim H
  obtain ⟨hb4, rfl⟩ := rdStr_ok_iff.mp hsig
  have hsigeq := checkSignature_ok_elim hu
  obtain ⟨hb24, rfl⟩ := rdLE_ok_iff.mp hvM
  obtain ⟨hb25, rfl⟩ := rdLE_ok_iff.mp hvm
  dsimp only at H
  by_cases l14 : las14OfBuf buf
  · rw [if_pos (show 1 ≤ leField buf 24 1 ∧ 4 ≤ leField buf 25 1 from l14)] at H
    obtain ⟨cnt, hcnt, H⟩ := excBind_ok_elim H
    obtain ⟨hb255, rfl⟩ := rdLE_ok_iff.mp hcnt
    cases H
    exact ⟨hsigeq, by omega, by rw [if_pos l14]; omega,
      by simp [headerPrefixAt, if_pos l14]⟩
  · rw [if_neg (show ¬(1 ≤ leField buf 24 1 ∧ 4 ≤ leField buf 25 1) from l14)] at H
    obtain ⟨cnt, hcnt, H⟩ := excBind_ok_elim H
    obtain ⟨hb111, rfl⟩ := rdLE_ok_iff.mp hcnt
    cases H
    exact ⟨hsigeq, by omega, by rw [if_neg l14]; omega,
      by simp [headerPrefixAt, if_neg l14]⟩

lemma parseHeaderPrefix_eq_ok {buf : List Nat}
    (hsig : strField buf 0 4 = lasfSignature) (h26 : 26 ≤ buf.length)
    (hcnt : if las14OfBuf buf then 255 ≤ buf.length else 111 ≤ buf.length) :
    LasFileParser.parseHeaderPrefix buf = .ok (headerPrefixAt buf) := by
  have e0 : rdStr buf 0 4 = .ok (strField buf 0 4) :=
    rdStr_ok_iff.mpr ⟨by omega, rfl⟩
  have ecs : checkSignature (strField buf 0 4) = .ok () := checkSignature_eq_ok hsig
  have e24 : rdLE buf 24 1 = .ok (leField buf 24 1) := rdLE_ok_iff.mpr ⟨by omega, rfl⟩
  have e25 : rdLE buf 25 1 = .ok (leField buf 25 1) := rdLE_ok_iff.mpr ⟨by omega, rfl⟩
  by_cases l14 : las14OfBuf buf
  · rw [if_pos l14] at hcnt
    have ec : rdLE buf 247 8 = .ok (leField buf 247 8) :=
      rdLE_ok_iff.mpr ⟨by omega, rfl⟩
    simp [LasFileParser.parseHeaderPrefix, e0, ecs, e24, e25, ec,
      headerPrefixAt, las14OfBuf] at l14 ⊢
    simp [if_pos l14, l14.1, l14.2]
  · rw [if_neg l14] at hcnt
    have ec : rdLE buf 107 4 = .ok (leField buf 107 4) :=
      rdLE_ok_iff.mpr ⟨by omega, rfl⟩
    have l14' : ¬(1 ≤ leField buf 24 1 ∧ 4 ≤ leField buf 25 1) := l14
    simp [LasFileParser.parseHeaderPrefix, e0, ecs, e24, e25, ec,
      headerPrefixAt, if_neg l14, if_neg l14']

lemma parseHeaderScalars_ok_elim {buf : List Nat}
    {t : Nat × Nat × List Nat × List Nat × List Nat × Nat × Nat × Nat × Nat ×
      Nat × Nat × Nat}
    (H : LasFileParser.parseHeaderScalars buf = .ok t) :
    107 ≤ buf.length ∧ t = headerScalarsAt buf := by
  unfold LasFileParser.parseHeaderScalars at H
  obtain ⟨a1, h1, H⟩ := excBind_ok_elim H
  obtain ⟨a2, h2, H⟩ := excBind_ok_elim H
  obtain ⟨a3, h3, H⟩ := excBind_ok_elim H
  obtain ⟨a4, h4, H⟩ := excBind_ok_elim H
  obtain ⟨a5, h5, H⟩ := excBind_ok_elim H
  obtain ⟨a6, h6, H⟩ := excBind_ok_elim H
  obtain ⟨a7, h7, H⟩ := excBind_ok_elim H
  obtain ⟨a8, h8, H⟩ := excBind_ok_elim H
  obtain ⟨a9, h9, H⟩ := excBind_ok_elim H
  obtain ⟨a10, h10, H⟩ := excBind_ok_elim H
  obtain ⟨a11, h11, H⟩ := excBind_ok_elim H
  obtain ⟨a12, h12, H⟩ := excBind_ok_elim H
  obtain ⟨hb1, rfl⟩ := rdLE_ok_iff.mp h1
  obtain ⟨hb2, rfl⟩ := rdLE_ok_iff.mp h2
  obtain ⟨hb3, rfl⟩ := rdGuid_ok_iff.mp h3
  obtain ⟨hb4, rfl⟩ := rdStr_ok_iff.mp h4
  obtain ⟨hb5, rfl⟩ := rdStr_ok_iff.mp h5
  obtain ⟨hb6, rfl⟩ := rdLE_ok_iff.mp h6
  obtain ⟨hb7, rfl⟩ := rdLE_ok_iff.mp h7
  obtain ⟨hb8, rfl⟩ := rdLE_ok_iff.mp h8
  obtain ⟨hb9, rfl⟩ := rdLE_ok_iff.mp h9
  obtain ⟨hb10, rfl⟩ := rdLE_ok_iff.mp h10
  obtain ⟨hb11, rfl⟩ := rdLE_ok_iff.mp h11
  obtain ⟨hb12, rfl⟩ := rdLE_ok_iff.mp h12
  cases H
  exact ⟨by omega, rfl⟩

lemma parseHeaderScalars_eq_ok {buf : List Nat} (hb : 107 ≤ buf.length) :
    LasFileParser.parseHeaderScalars buf = .ok (headerScalarsAt buf) := by
  have e1 : rdLE buf 4 2 = .ok (leField buf 4 2) := rdLE_ok_iff.mpr ⟨by omega, rfl⟩
  have e2 : rdLE buf 6 2 = .ok (leField buf 6 2) := rdLE_ok_iff.mpr ⟨by omega, rfl⟩
  have e3 : rdGuid buf 8 = .ok (bytesAt buf 8 16) := rdGuid_ok_iff.mpr ⟨by omega, rfl⟩
  have e4 : rdStr buf 26 32 = .ok (strField buf 26 32) := rdStr_ok_iff.mpr ⟨by omega, rfl⟩
  have e5 : rdStr buf 58 32 = .ok (strField buf 58 32) := rdStr_ok_iff.mpr ⟨by omega, rfl⟩
  have e6 : rdLE buf 90 2 = .ok (leField buf 90 2) := rdLE_ok_iff.mpr ⟨by omega, rfl⟩
  have e7 : rdLE buf 92 2 = .ok (leField buf 92 2) := rdLE_ok_iff.mpr ⟨by omega, rfl⟩
  have e8 : rdLE buf 94 2 = .ok (leField buf 94 2) := rdLE_ok_iff.mpr ⟨by omega, rfl⟩
  have e9 : rdLE buf 96 4 = .ok (leField buf 96 4) := rdLE_ok_iff.mpr ⟨by omega, rfl⟩
  have e10 : rdLE buf 100 4 = .ok (leField buf 100 4) := rdLE_ok_iff.mpr ⟨by omega, rfl⟩
  have e11 : rdLE buf 104 1 = .ok (leField buf 104 1) := rdLE_ok_iff.mpr ⟨by omega, rfl⟩
  have e12 : rdLE buf 105 2 = .ok (leField buf 105 2) := rdLE_ok_iff.mpr ⟨by omega, rfl⟩
  simp [LasFileParser.parseHeaderScalars, e1, e2, e3, e4, e5, e6, e7, e8, e9,
    e10, e11, e12, headerScalarsAt]

lemma parseHeaderScales_ok_elim {f64 : Nat → ℚ} {buf : List Nat}
    {t : ℚ × ℚ × ℚ × ℚ × ℚ × ℚ}
    (H : LasFileParser.parseHeaderScales f64 buf = .ok t) :
    179 ≤ buf.length ∧ t = headerScalesAt f64 buf := by
  unfold LasFileParser.parseHeaderScales at H
  obtain ⟨a1, h1, H⟩ := excBind_ok_elim H
  obtain ⟨a2, h2, H⟩ := excBind_ok_elim H
  obtain ⟨a3, h3, H⟩ := excBind_ok_elim H
  obtain ⟨a4, h4, H⟩ := excBind_ok_elim H
  obtain ⟨a5, h5, H⟩ := excBind_ok_elim H
  obtain ⟨a6, h6, H⟩ := excBind_ok_elim H
  obtain ⟨hb1, rfl⟩ := rdF64_ok_iff.mp h1
  obtain ⟨hb2, rfl⟩ := rdF64_ok_iff.mp h2
  obtain ⟨hb3, rfl⟩ := rdF64_ok_iff.mp h3
  obtain ⟨hb4, rfl⟩ := rdF64_ok_iff.mp h4
  obtain ⟨hb5, rfl⟩ := rdF64_ok_iff.mp h5
  obtain ⟨hb6, rfl⟩ := rdF64_ok_iff.mp h6
  cases H
  exact ⟨by omega, rfl⟩

lemma parseHeaderScales_eq_ok {f64 : Nat → ℚ} {buf : List Nat}
    (hb : 179 ≤ buf.length) :
    LasFileParser.parseHeaderScales f64 buf = .ok (headerScalesAt f64 buf) := by
  have e1 : rdF64 f64 buf 131 = .ok (f64 (leField buf 131 8)) := rdF64_ok_iff.mpr ⟨by omega, rfl⟩
  have e2 : rdF64 f64 buf 139 = .ok (f64 (leField buf 139 8)) := rdF64_ok_iff.mpr ⟨by omega, rfl⟩
  have e3 : rdF64 f64 buf 147 = .ok (f64 (leField buf 147 8)) := rdF64_ok_iff.mpr ⟨by omega, rfl⟩
  have e4 : rdF64 f64 buf 155 = .ok (f64 (leField buf 155 8)) := rdF64_ok_iff.mpr ⟨by omega, rfl⟩
  have e5 : rdF64 f64 buf 163 = .ok (f64 (leField buf 163 8)) := rdF64_ok_iff.mpr ⟨by omega, rfl⟩
  have e6 : rdF64 f64 buf 171 = .ok (f64 (leField buf 171 8)) := rdF64_ok_iff.mpr ⟨by omega, rfl⟩
  simp [LasFileParser.parseHeaderScales, e1, e2, e3, e4, e5, e6, headerScalesAt]

lemma parseHeaderBounds_ok_elim {f64 : Nat → ℚ} {buf : List Nat}
    {t : ℚ × ℚ × ℚ × ℚ × ℚ × ℚ}
    (H : LasFileParser.parseHeaderBounds f64 buf = .ok t) :
    227 ≤ buf.length ∧ t = headerBoundsAt f64 buf := by
  unfold LasFileParser.parseHeaderBounds at H
  obtain ⟨a1, h1, H⟩ := excBind_ok_elim H
  obtain ⟨a2, h2, H⟩ := excBind_ok_elim H
  obtain ⟨a3, h3, H⟩ := excBind_ok_elim H
  obtain ⟨a4, h4, H⟩ := excBind_ok_elim H
  obtain ⟨a5, h5, H⟩ := excBind_ok_elim H
  obtain ⟨a6, h6, H⟩ := excBind_ok_elim H
  obtain ⟨hb1, rfl⟩ := rdF64_ok_iff.mp h1
  obtain ⟨hb2, rfl⟩ := rdF64_ok_iff.mp h2
  obtain ⟨hb3, rfl⟩ := rdF64_ok_iff.mp h3
  obtain ⟨hb4, rfl⟩ := rdF64_ok_iff.mp h4
  obtain ⟨hb5, rfl⟩ := rdF64_ok_iff.mp h5
  obtain ⟨hb6, rfl⟩ := rdF64_ok_iff.mp h6
  cases H
  exact ⟨by omega, rfl⟩

lemma parseHeaderBounds_eq_ok {f64 : Nat → ℚ} {buf : List Nat}
    (hb : 227 ≤ buf.length) :
    LasFileParser.parseHeaderBounds f64 buf = .ok (headerBoundsAt f64 buf) := by
  have e1 : rdF64 f64 buf 179 = .ok (f64 (leField buf 179 8)) := rdF64_ok_iff.mpr ⟨by omega, rfl⟩
  have e2 : rdF64 f64 buf 187 = .ok (f64 (leField buf 187 8)) := rdF64_ok_iff.mpr ⟨by omega, rfl⟩
  have e3 : rdF64 f64 buf 195 = .ok (f64 (leField buf 195 8)) := rdF64_ok_iff.mpr ⟨by omega, rfl⟩
  have e4 : rdF64 f64 buf 203 = .ok (f64 (leField buf 203 8)) := rdF64_ok_iff.mpr ⟨by omega, rfl⟩
  have e5 : rdF64 f64 buf 211 = .ok (f64 (leField buf 211 8)) := rdF64_ok_iff.mpr ⟨by omega, rfl⟩
  have e6 : rdF64 f64 buf 219 = .ok (f64 (leField buf 219 8)) := rdF64_ok_iff.mpr ⟨by omega, rfl⟩
  simp [LasFileParser.parseHeaderBounds, e1, e2, e3, e4, e5, e6, headerBoundsAt]

lemma parseHeader_ok_elim {f64 : Nat → ℚ} {buf : List Nat} {h : LasHeader}
    (H : LasFileParser.parseHeader f64 buf = .ok h) :
    h = mkHeader f64 buf ∧ 227 ≤ buf.length ∧
      strField buf 0 4 = lasfSignature ∧
      (las14OfBuf buf → 295 ≤ buf.length) := by
  unfold LasFileParser.parseHeader at H
  obtain ⟨tp, hp, H⟩ := excBind_ok_elim H
  obtain ⟨hsig, h26, hcnt, rfl⟩ := parseHeaderPrefix_ok_elim hp
  simp only [headerPrefixAt] at H
  obtain ⟨ts, hs, H⟩ := excBind_ok_elim H
  obtain ⟨h107, rfl⟩ := parseHeaderScalars_ok_elim hs
  simp only [headerScalarsAt] at H
  by_cases l14 : las14OfBuf buf
  · rw [if_pos (show 1 ≤ leField buf 24 1 ∧ 4 ≤ leField buf 25 1 from l14)] at H
    obtain ⟨tr, hr, H⟩ := excBind_ok_elim H
    obtain ⟨hb295, rfl⟩ := readReturnCounts_ok_elim hr
    obtain ⟨tsc, hsc, H⟩ := excBind_ok_elim H
    obtain ⟨h179, rfl⟩ := parseHeaderScales_ok_elim hsc
    simp only [headerScalesAt] at H
    obtain ⟨tb, hb, H⟩ := excBind_ok_elim H
    obtain ⟨h227, rfl⟩ := parseHeaderBounds_ok_elim hb
    simp only [headerBoundsAt] at H
    cases H
    refine ⟨?_, by omega, hsig, fun _ => by omega⟩
    simp [mkHeader, if_pos l14]
  · rw [if_neg (show ¬(1 ≤ leField buf 24 1 ∧ 4 ≤ leField buf 25 1) from l14)] at H
    obtain ⟨tr, hr, H⟩ := excBind_ok_elim H
    obtain ⟨hb131, rfl⟩ := readReturnCounts_ok_elim hr
    obtain ⟨tsc, hsc, H⟩ := excBind_ok_elim H
    obtain ⟨h179, rfl⟩ := parseHeaderScales_ok_elim hsc
    simp only [headerScalesAt] at H
    obtain ⟨tb, hb, H⟩ := excBind_ok_elim H
    obtain ⟨h227, rfl⟩ := parseHeaderBounds_ok_elim hb
    simp only [headerBoundsAt] at H
    cases H
    refine ⟨?_, by omega, hsig, fun hc => absurd hc l14⟩
    simp [mkHeader, if_neg l14]

lemma parseHeader_eq_ok {f64 : Nat → ℚ} {buf : List Nat}
    (h227 : 227 ≤ buf.length) (hsig : strField buf 0 4 = lasfSignature)
    (h295 : las14OfBuf buf → 295 ≤ buf.length) :
    LasFileParser.parseHeader f64 buf = .ok (mkHeader f64 buf) := by
  have hpre : LasFileParser.parseHeaderPrefix buf = .ok (headerPrefixAt buf) := by
    refine parseHeaderPrefix_eq_ok hsig (by omega) ?_
    by_cases l14 : las14OfBuf buf
    · rw [if_pos l14]; have := h295 l14; omega
    · rw [if_neg l14]; omega
  have hsca := @parseHeaderScalars_eq_ok buf (by omega)
  have hscl := @parseHeaderScales_eq_ok f64 buf (by omega)
  have hbnd := @parseHeaderBounds_eq_ok f64 buf h227
  by_cases l14 : las14OfBuf buf
  · have hret := @readReturnCounts_eq_ok buf 255 8
      (by have := h295 l14; omega)
    simp only [LasFileParser.parseHeader, hpre, exceptOk_bind, headerPrefixAt,
      headerScalarsAt, hsca, hscl, hbnd]
    rw [if_pos (show 1 ≤ leField buf 24 1 ∧ 4 ≤ leField buf 25 1 from l14)]
    simp only [hret, exceptOk_bind, headerScalesAt, headerBoundsAt,
      exceptPure_eq_ok]
    simp [mkHeader, if_pos l14]
  · have hret := @readReturnCounts_eq_ok buf 111 4
      (by omega)
    simp only [LasFileParser.parseHeader, hpre, exceptOk_bind, headerPrefixAt,
      headerScalarsAt, hsca, hscl, hbnd]
    rw [if_neg (show ¬(1 ≤ leField buf 24 1 ∧ 4 ≤ leField buf 25 1) from l14)]
    simp only [hret, exceptOk_bind, headerScalesAt, headerBoundsAt,
      exceptPure_eq_ok]
    simp [mkHeader, if_neg l14]

/-- C5 (amended): header decoding fails exactly when the buffer is shorter
than 227 bytes, or the magic signature differs from LASF, or the version
bytes satisfy the decoder's 1.4 predicate and the buffer is shorter than
the 295 bytes its extended 64-bit fields need; otherwise a header is
produced. -/
theorem headerDecode_error_iff (f64 : Nat → ℚ) (buf : List Nat) :
    (∃ e, LasFileParser.parseHeader f64 buf = .error e) ↔
      (buf.length < 227 ∨ strField buf 0 4 ≠ lasfSignature ∨
        (las14OfBuf buf ∧ buf.length < 295)) := by
  constructor
  · rintro ⟨e, he⟩
    by_contra hc
    push_neg at hc
    obtain ⟨h227, hsig, h14⟩ := hc
    rw [parseHeader_eq_ok (by omega) hsig (fun l => by have := h14 l; omega)] at he
    exact absurd he (by simp)
  · intro hdisj
    cases hEq : LasFileParser.parseHeader f64 buf with
    | error e => exact ⟨e, rfl⟩
    | ok h =>
      obtain ⟨-, h227, hsig, h295⟩ := parseHeader_ok_elim hEq
      rcases hdisj with hlen | hsig' | ⟨l14, hlen⟩
      · omega
      · exact absurd hsig hsig'
      · have := h295 l14; omega

/-- C5 counterexample: bufC5 is 250 bytes long (at least 227) and carries
the LASF magic, so the claim says a header is produced; the decoder instead
fails with an out-of-bounds read (the version-1.4 path reads the 64-bit
count at offset 247, which needs 255 bytes). -/
theorem headerDecode_las14_short_buffer :
    bufC5.length = 250 ∧ strField bufC5 0 4 = lasfSignature ∧
    LasFileParser.parseHeader f64c bufC5 = .error .outOfBounds := by
  refine ⟨by decide, by decide, by rfl⟩

/-- C4 (amended): for every successfully decoded header, the point-record
count comes from the 64-bit field at offset 247 exactly when versionMajor
is at least 1 AND versionMinor is at least 4 (the decoder's predicate),
and from the legacy 32-bit field at offset 107 otherwise; a version such
as 2.0, although numerically at least 1.4, takes the legacy field. -/
theorem pointCount_field_selection (f64 : Nat → ℚ) (buf : List Nat)
    (h : LasHeader) (H : LasFileParser.parseHeader f64 buf = .ok h) :
    h.versionMajor = leField buf 24 1 ∧ h.versionMinor = leField buf 25 1 ∧
    h.numberOfPointRecords =
      (if 1 ≤ h.versionMajor ∧ 4 ≤ h.versionMinor then leField buf 247 8
       else leField buf 107 4) := by
  obtain ⟨rfl, -, -, -⟩ := parseHeader_ok_elim H
  refine ⟨rfl, rfl, ?_⟩
  by_cases l14 : las14OfBuf buf
  · rw [show (mkHeader f64 buf).numberOfPointRecords =
        (if las14OfBuf buf then leField buf 247 8 else leField buf 107 4) from rfl]
    rw [if_pos l14, if_pos (show 1 ≤ (mkHeader f64 buf).versionMajor ∧
      4 ≤ (mkHeader f64 buf).versionMinor from l14)]
  · rw [show (mkHeader f64 buf).numberOfPointRecords =
        (if las14OfBuf buf then leField buf 247 8 else leField buf 107 4) from rfl]
    rw [if_neg l14, if_neg (show ¬(1 ≤ (mkHeader f64 buf).versionMajor ∧
      4 ≤ (mkHeader f64 buf).versionMinor) from l14)]

theorem pointCount_field_selection_witness :
    hdrW14.versionMajor = leField bufW14 24 1 ∧
    hdrW14.versionMinor = leField bufW14 25 1 ∧
    hdrW14.numberOfPointRecords =
      (if 1 ≤ hdrW14.versionMajor ∧ 4 ≤ hdrW14.versionMinor then
        leField bufW14 247 8
       else leField bufW14 107 4) :=
  pointCount_field_selection f64c bufW14 hdrW14 rfl

/-- C4 counterexample: bufC4's version bytes read 2.0 (numerically past
1.4) and its extended 64-bit count field holds 7, yet the decoded header's
point count is the legacy 32-bit field's 5: the decoder's predicate
demands versionMinor at least 4, so the claim's version-ordering reading
fails. -/
theorem version20_uses_legacy_pointCount :
    leField bufC4 24 1 = 2 ∧ leField bufC4 25 1 = 0 ∧
    leField bufC4 247 8 = 7 ∧ leField bufC4 107 4 = 5 ∧
    (LasFileParser.parseHeader f64c bufC4).toOption.map
      (fun h => h.numberOfPointRecords) = some 5 := by
  refine ⟨by decide, by decide, by decide, by decide, by rfl⟩

@[simp] lemma exceptOk_map {α β : Type} (f : α → β) (a : α) :
    Except.map f (Except.ok a : Except ParseErr α) = .ok (f a) := rfl

@[simp] lemma exceptError_map {α β : Type} (f : α → β) (e : ParseErr) :
    Except.map f (Except.error e : Except ParseErr α) = .error e := rfl

lemma le_readExtent (fmt : Nat) : 21 ≤ readExtent fmt := by
  unfold readExtent; split_ifs <;> omega

lemma statsPass_ok {buf : List Nat} {h : LasHeader}
    (hps : 17 ≤ h.pointDataRecordLength) :
    ∀ n i counts, ∃ c, LasFileParser.statsPass buf h i n counts = .ok c := by
  intro n
  induction n with
  | zero => exact fun i counts => ⟨counts, rfl⟩
  | succ n IH =>
    intro i counts
    unfold LasFileParser.statsPass
    by_cases hbr : h.offsetToPointData + i * h.pointDataRecordLength +
        h.pointDataRecordLength > buf.length
    · rw [if_pos hbr]
      exact ⟨counts, rfl⟩
    · rw [if_neg hbr]
      have hrd : readU8 buf
          (h.offsetToPointData + i * h.pointDataRecordLength + 16) =
          some (leField buf
            (h.offsetToPointData + i * h.pointDataRecordLength + 16) 1) :=
        readU8_eq_some_iff.mpr ⟨by omega, rfl⟩
      rw [hrd]
      exact IH (i + 1) _

lemma readPass_ok {f64 : Nat → ℚ} {buf : List Nat} {h : LasHeader}
    (hre : readExtent h.pointDataRecordFormat ≤ h.pointDataRecordLength) :
    ∀ n i, ∃ pts, LasFileParser.readPass f64 buf h i n = .ok pts ∧
      pts.length = min n
        ((buf.length - h.offsetToPointData) / h.pointDataRecordLength - i) := by
  have hps : 21 ≤ h.pointDataRecordLength :=
    le_trans (le_readExtent _) hre
  intro n
  induction n with
  | zero => exact fun i => ⟨[], rfl, by simp⟩
  | succ n IH =>
    intro i
    unfold LasFileParser.readPass
    by_cases hbr : h.offsetToPointData + i * h.pointDataRecordLength +
        h.pointDataRecordLength > buf.length
    · rw [if_pos hbr]
      refine ⟨[], rfl, ?_⟩
      have hK : (buf.length - h.offsetToPointData) / h.pointDataRecordLength ≤ i := by
        by_contra hlt
        push_neg at hlt
        have := (Nat.le_div_iff_mul_le (by omega :
          0 < h.pointDataRecordLength)).mp hlt
        have hmul : i * h.pointDataRecordLength + h.pointDataRecordLength
            = (i + 1) * h.pointDataRecordLength := by ring
        set t := (i + 1) * h.pointDataRecordLength with ht
        omega
      simp
      omega
    · rw [if_neg hbr]
      have hsome := @parsePoint_eq_some_of_le f64 buf
        (h.offsetToPointData + i * h.pointDataRecordLength) h
        (by omega)
      rw [hsome]
      obtain ⟨pts, hpts, hlen⟩ := IH (i + 1)
      rw [hpts]
      refine ⟨_ :: pts, rfl, ?_⟩
      have hK : i + 1 ≤ (buf.length - h.offsetToPointData) /
          h.pointDataRecordLength := by
        rw [Nat.le_div_iff_mul_le (by omega : 0 < h.pointDataRecordLength)]
        have hmul : i * h.pointDataRecordLength + h.pointDataRecordLength
            = (i + 1) * h.pointDataRecordLength := by ring
        set t := (i + 1) * h.pointDataRecordLength with ht
        omega
      simp [hlen]
      omega

/-- C3 (amended): when the declared point data extends past the end of the
buffer AND every record the decoder visits fits its read extent (the
decoder reads readExtent bytes per record, one byte past the public
record length for format 0, so the record length must be at least that
extent), point decoding stops at the last complete record without
throwing: the parse returns one point per record that fits, and
statistics.totalPoints still reports the header's declared count. -/
theorem truncated_decode_stops (f64 : Nat → ℚ) (h : LasHeader) (buf : List Nat)
    (hre : readExtent h.pointDataRecordFormat ≤ h.pointDataRecordLength)
    (htr : buf.length < h.offsetToPointData +
      h.numberOfPointRecords * h.pointDataRecordLength) :
    ∃ pts st, LasFileParser.parsePoints f64 h buf initialStatistics
        = .ok (pts, st) ∧
      pts.length = min h.numberOfPointRecords
        ((buf.length - h.offsetToPointData) / h.pointDataRecordLength) ∧
      (0 < h.numberOfPointRecords → pts.length < h.numberOfPointRecords) ∧
      st.totalPoints = h.numberOfPointRecords := by
  have hps : 21 ≤ h.pointDataRecordLength := le_trans (le_readExtent _) hre
  obtain ⟨c, hc⟩ := @statsPass_ok buf h (by omega)
    h.numberOfPointRecords 0 initialStatistics.classificationCounts
  obtain ⟨pts, hpts, hlen⟩ := @readPass_ok f64 buf h
    hre h.numberOfPointRecords 0
  have hKlt : 0 < h.numberOfPointRecords →
      (buf.length - h.offsetToPointData) / h.pointDataRecordLength
        < h.numberOfPointRecords := by
    intro hN
    rw [Nat.div_lt_iff_lt_mul (by omega : 0 < h.pointDataRecordLength)]
    have hmono : 1 * h.pointDataRecordLength ≤
        h.numberOfPointRecords * h.pointDataRecordLength :=
      Nat.mul_le_mul_right _ hN
    set t := h.numberOfPointRecords * h.pointDataRecordLength with ht
    omega
  refine ⟨pts,
    { initialStatistics with
        classificationCounts := c
        totalPoints := h.numberOfPointRecords }, ?_, ?_, ?_, rfl⟩
  · simp [LasFileParser.parsePoints, hc, hpts]
  · simpa using hlen
  · intro hN
    have := hKlt hN
    simp at hlen
    omega

/-- C3 counterexample: the buffer holds exactly one complete 20-byte
format-0 record of the two declared, so the claim says decoding stops at
that record and returns it without throwing; instead the decoder throws:
its point-source-id read at window offset 19 needs 21 bytes, one past the
record that ends flush with the buffer. -/
theorem truncated_flushRecord_throws :
    bufC3.length < hdrC3.offsetToPointData +
      hdrC3.numberOfPointRecords * hdrC3.pointDataRecordLength ∧
    hdrC3.offsetToPointData + hdrC3.pointDataRecordLength ≤ bufC3.length ∧
    LasFileParser.parsePoints f64c hdrC3 bufC3 initialStatistics
      = .error .outOfBounds := by
  refine ⟨by decide, by decide, by rfl⟩

theorem truncated_decode_stops_witness :
    ∃ pts st, LasFileParser.parsePoints f64c (mkTestHeader 0 21 2)
        (buildBuf 21 []) initialStatistics = .ok (pts, st) ∧
      pts.length = min (mkTestHeader 0 21 2).numberOfPointRecords
        (((buildBuf 21 []).length -
          (mkTestHeader 0 21 2).offsetToPointData) /
            (mkTestHeader 0 21 2).pointDataRecordLength) ∧
      (0 < (mkTestHeader 0 21 2).numberOfPointRecords →
        pts.length < (mkTestHeader 0 21 2).numberOfPointRecords) ∧
      st.totalPoints = (mkTestHeader 0 21 2).numberOfPointRecords :=
  truncated_decode_stops f64c (mkTestHeader 0 21 2) (buildBuf 21 [])
    (by decide) (by decide)

/-- C10: on the plain (uncompressed) parse path, parsePoints only fills
classificationCounts and totalPoints; the returned statistics keep the
constructor's zero-initialized boundingBox and intensityRange untouched. -/
theorem plainPath_frame_effect (f64 : Nat → ℚ) (h : LasHeader)
    (buf : List Nat) (pts : List LasPoint) (st : Statistics)
    (H : LasFileParser.parsePoints f64 h buf initialStatistics = .ok (pts, st)) :
    st.boundingBox = initialStatistics.boundingBox ∧
    st.intensityRange = initialStatistics.intensityRange ∧
    st.totalPoints = h.numberOfPointRecords := by
  unfold LasFileParser.parsePoints at H
  obtain ⟨c, hc, H⟩ := excBind_ok_elim H
  obtain ⟨ps, hp, H⟩ := excBind_ok_elim H
  cases H
  exact ⟨rfl, rfl, rfl⟩

theorem plainPath_frame_effect_witness :
    rW10.2.boundingBox = initialStatistics.boundingBox ∧
    rW10.2.intensityRange = initialStatistics.intensityRange ∧
    rW10.2.totalPoints = (mkTestHeader 0 21 1).numberOfPointRecords :=
  plainPath_frame_effect f64c (mkTestHeader 0 21 1) (buildBuf 21 [])
    rW10.1 rW10.2 rfl

/-- C2 counterexample: the plain path decodes a point with x = 100 but its
returned statistics keep the zero-initialized bounding box, whose maxX = 0
is smaller than the decoded point's x, violating min <= x <= max. -/
theorem statisticsBoundingBox_plain_violation :
    LasFileParser.parsePoints f64c (mkTestHeader 0 21 1) bufC2
        initialStatistics = .ok (rC2.1, rC2.2) ∧
    ∃ p ∈ rC2.1, rC2.2.boundingBox.maxX < p.x := by
  refine ⟨rfl, ⟨pC2, ?_, ?_⟩⟩
  · rw [show rC2.1 = [pC2] from rfl]
    exact List.mem_singleton.mpr rfl
  · rw [show rC2.2.boundingBox.maxX = (0 : ℚ) from rfl,
      show pC2.x = ((100 : ℤ) : ℚ) * 1 + 0 from rfl]
    norm_num

lemma bbExtends_refl (b : BoundingBox) : bbExtends b b :=
  ⟨le_refl _, le_refl _, le_refl _, le_refl _, le_refl _, le_refl _⟩

lemma bbExtends_trans {b3 b2 b1 : BoundingBox}
    (h32 : bbExtends b3 b2) (h21 : bbExtends b2 b1) : bbExtends b3 b1 :=
  ⟨le_trans h32.1 h21.1, le_trans h21.2.1 h32.2.1,
   le_trans h32.2.2.1 h21.2.2.1, le_trans h21.2.2.2.1 h32.2.2.2.1,
   le_trans h32.2.2.2.2.1 h21.2.2.2.2.1, le_trans h21.2.2.2.2.2 h32.2.2.2.2.2⟩

lemma bbExtends_contains {b2 b1 : BoundingBox} {p : LasPoint}
    (hx : bbExtends b2 b1) (hc : bbContains b1 p) : bbContains b2 p :=
  ⟨le_trans hx.1 hc.1, le_trans hc.2.1 hx.2.1,
   le_trans hx.2.2.1 hc.2.2.1, le_trans hc.2.2.2.1 hx.2.2.2.1,
   le_trans hx.2.2.2.2.1 hc.2.2.2.2.1, le_trans hc.2.2.2.2.2 hx.2.2.2.2.2⟩

lemma updateStatistics_contains (st : Statistics) (p : LasPoint) :
    bbContains (LazFileParser.updateStatistics st p).boundingBox p := by
  refine ⟨min_le_right _ _, le_max_right _ _, min_le_right _ _,
    le_max_right _ _, min_le_right _ _, le_max_right _ _⟩

lemma updateStatistics_extends (st : Statistics) (p : LasPoint) :
    bbExtends (LazFileParser.updateStatistics st p).boundingBox
      st.boundingBox := by
  refine ⟨min_le_left _ _, le_max_left _ _, min_le_left _ _,
    le_max_left _ _, min_le_left _ _, le_max_left _ _⟩

lemma lazParsePoints_bb {f64 : Nat → ℚ} {getRecord : Nat → List Nat}
    {h : LasHeader} :
    ∀ n i st pts st',
      LazFileParser.parsePoints f64 getRecord h i n st = .ok (pts, st') →
      bbInvariant pts st' ∧ bbExtends st'.boundingBox st.boundingBox := by
  intro n
  induction n with
  | zero =>
    intro i st pts st' H
    unfold LazFileParser.parsePoints at H
    cases H
    exact ⟨fun p hp => absurd hp (List.not_mem_nil p), bbExtends_refl _⟩
  | succ n IH =>
    intro i st pts st' H
    unfold LazFileParser.parsePoints at H
    cases hpp : LazFileParser.parsePoint f64 (getRecord i) 0 h with
    | none => rw [hpp] at H; exact absurd H (by simp)
    | some p =>
      simp only [hpp] at H
      cases hrec : LazFileParser.parsePoints f64 getRecord h (i + 1) n
          (LazFileParser.updateStatistics st p) with
      | error e => rw [hrec] at H; exact absurd H (by simp)
      | ok r =>
        rw [hrec] at H
        simp only [exceptOk_map, Except.ok.injEq, Prod.mk.injEq] at H
        obtain ⟨rfl, rfl⟩ := H
        obtain ⟨hinv, hext⟩ := IH (i + 1) (LazFileParser.updateStatistics st p)
          r.1 r.2 (by rw [hrec])
        refine ⟨?_, bbExtends_trans hext (updateStatistics_extends st p)⟩
        intro q hq
        rcases List.mem_cons.mp hq with rfl | hq'
        · exact bbExtends_contains hext (updateStatistics_contains st q)
        · exact hinv q hq'

/-- C2 (amended): on the compressed path the statistics invariant holds:
every decoded point lies inside the final bounding box, axis by axis (the
plain path instead leaves the bounding box zero-initialized, see the
counterexample). -/
theorem lazPath_boundingBox_contains (f64 : Nat → ℚ)
    (getRecord : Nat → List Nat) (h : LasHeader) (n : Nat)
    (pts : List LasPoint) (st : Statistics)
    (H : LazFileParser.parsePoints f64 getRecord h 0 n initialStatistics
      = .ok (pts, st)) :
    bbInvariant pts st :=
  (lazParsePoints_bb n 0 initialStatistics pts st H).1

theorem lazPath_boundingBox_contains_witness : bbInvariant rL.1 rL.2 :=
  lazPath_boundingBox_contains f64c (fun _ => bufC2) (mkTestHeader 0 21 1) 1
    rL.1 rL.2 rfl

/-- C8 (amended): when the reprojection step fails, the failure propagates
out of parse (the catch rethrows): the parse returns that error instead of
a dataset with the geo-extent omitted. -/
theorem reprojection_failure_propagates (proj : ℚ × ℚ → Option (ℚ × ℚ))
    (f64 : Nat → ℚ) (buf : List Nat) (hd : LasHeader)
    (r : List LasPoint × Statistics)
    (H1 : LasFileParser.parseHeader f64 buf = .ok hd)
    (H2 : LasFileParser.parsePoints f64 hd buf initialStatistics = .ok r)
    (H3 : LasFileParser.detectUTMZone proj f64 buf
      ((hd.maxX + hd.minX) / 2) ((hd.maxY + hd.minY) / 2)
        = .error .reprojectionError) :
    LasFileParser.parse proj f64 buf = .error .reprojectionError := by
  obtain ⟨-, h227, -, -⟩ := parseHeader_ok_elim H1
  unfold LasFileParser.parse
  rw [if_neg (by omega : ¬ buf.length = 0)]
  simp [H1, H2, H3]

/-- C8 counterexample: on a fully valid buffer, a projection engine that
rejects every input makes the whole parse fail with the reprojection
error, while the same buffer parses fine when the engine accepts; the
parse never returns a dataset with the geo-extent merely omitted. -/
theorem reprojection_failure_aborts_parse :
    LasFileParser.parse (fun _ => none) f64c bufV
        = .error .reprojectionError ∧
    (LasFileParser.parse (fun c => some c) f64c bufV).toOption.isSome
        = true := by
  exact ⟨rfl, rfl⟩

theorem reprojection_failure_propagates_witness :
    LasFileParser.parse (fun _ => none) f64c bufV
      = .error .reprojectionError :=
  reprojection_failure_propagates (fun _ => none) f64c bufV hdrV rV
    rfl rfl rfl
